import Mathlib

/-!
Verification of the Karbowanec blockchain state engine specification against
the source in src/.  The definitions below are a shallow embedding of the
relevant parts of src/src/CryptoNoteCore/Blockchain.cpp, src/src/Common/Math.h
and src/include/CryptoNote.h.  Machine integers are modelled as Nat with an
explicit modulus where overflow is possible; the ordered key-value store
(Platform::DB) is modelled as typed association lists, one per key prefix;
collaborator classes whose sources are not part of src/ (Currency,
Checkpoints, the transaction pool, the cryptographic primitives) appear as
fields of an explicit context structure `Ctx`.
-/

/-- Modulus of a 64-bit unsigned machine integer (uint64_t / size_t). -/
def U64 : Nat := 2 ^ 64

/-- Modulus of a 32-bit unsigned machine integer (uint32_t). -/
def U32 : Nat := 2 ^ 32

/-- Embedding of Common::medianValue (src/src/Common/Math.h:16-31) at
T = uint64_t (the instantiation used for block timestamps) and, identically,
at T = size_t (block sizes); both are 64-bit unsigned, so the even-length
branch `(v[n-1] + v[n]) / 2` adds with wrap-around modulo 2^64.
std::sort is modelled by insertion sort (any comparison sort computes the
same sorted list). -/
def medianValue (v : List Nat) : Nat :=
  if v.length = 0 then 0
  else if v.length = 1 then v.getD 0 0
  else
    let n := v.length / 2
    let s := List.insertionSort (· ≤ ·) v
    if v.length % 2 = 1 then s.getD n 0
    else ((s.getD (n - 1) 0 + s.getD n 0) % U64) / 2

/-- Description of the even-length case exactly as the claim words it:
the truncating integer average of the two middle sorted elements, with no
wrap-around. -/
def medianValueClaimedEven (v : List Nat) : Nat :=
  let n := v.length / 2
  let s := List.insertionSort (· ≤ ·) v
  (s.getD (n - 1) 0 + s.getD n 0) / 2

theorem medianValue_nil : medianValue [] = 0 := rfl

theorem medianValue_singleton (a : Nat) : medianValue [a] = a := rfl

/-- C10 counterexample: the claim describes the even-length case as the
truncating integer average (v[n-1] + v[n]) / 2, but the source adds two
uint64_t values, which wraps modulo 2^64 before the division; on the vector
[2^64-1, 2^64-1] the source returns 2^63-1 while the claimed formula gives
2^64-1. -/
theorem medianValue_even_wraps :
    medianValue [U64 - 1, U64 - 1] = 2 ^ 63 - 1 ∧
    medianValueClaimedEven [U64 - 1, U64 - 1] = U64 - 1 ∧
    medianValue [U64 - 1, U64 - 1] ≠ medianValueClaimedEven [U64 - 1, U64 - 1] := by
  refine ⟨?_, ?_, ?_⟩ <;> decide

/-- C10 (amended): medianValue returns 0 on the empty vector, the middle
element of the sorted vector for odd length (the single element for length
one), and for even length the truncating average of the two middle sorted
elements computed with 64-bit wrap-around, i.e. ((v[n-1] + v[n]) mod 2^64)/2.
Stated against any sorted permutation w of the input, so the statement does
not depend on the sorting algorithm used in the embedding. -/
theorem medianValue_characterization (v w : List Nat) (hp : w.Perm v)
    (hs : w.Sorted (· ≤ ·)) :
    medianValue v =
      if v.length = 0 then 0
      else if v.length % 2 = 1 then w.getD (v.length / 2) 0
      else ((w.getD (v.length / 2 - 1) 0 + w.getD (v.length / 2) 0) % U64) / 2 := by
  have hw : List.insertionSort (· ≤ ·) v = w :=
    List.eq_of_perm_of_sorted ((List.perm_insertionSort _ v).trans hp.symm)
      (List.sorted_insertionSort _ v) hs
  unfold medianValue
  rcases v with _ | ⟨a, v'⟩
  · simp
  rcases v' with _ | ⟨b, v''⟩
  · have hwa : w = [a] := by simpa using hw.symm
    simp [hwa]
  · simp only [List.length_cons, hw]
    norm_num

/-- Witness for medianValue_characterization at the concrete input
[3, 1, 2] whose sorted permutation is [1, 2, 3]. -/
theorem medianValue_characterization_witness :
    List.Perm [1, 2, 3] [3, 1, 2] ∧ medianValue [3, 1, 2] = 2 := by
  refine ⟨by decide, ?_⟩
  have h := medianValue_characterization [3, 1, 2] [1, 2, 3] (by decide) (by decide)
  simpa using h

/-! Data model, from src/include/CryptoNote.h.  Hashes, keys, key images and
signatures are opaque fixed byte blobs in the source; they are modelled as
natural numbers (only equality and map-key use is ever made of them). -/

/-- Opaque 32-byte Crypto::Hash value. -/
abbrev BHash := Nat

/-- Opaque Crypto::KeyImage value. -/
abbrev BKeyImage := Nat

/-- Opaque Crypto::PublicKey value. -/
abbrev BPublicKey := Nat

/-- Opaque Crypto::Signature value. -/
abbrev BSignature := Nat

/-- NULL_HASH, the all-zero hash. -/
def NULL_HASH : BHash := 0

/-- CryptoNote::TransactionInput (CryptoNote.h:28-53), a boost::variant of
BaseInput, KeyInput and MultisignatureInput. -/
inductive TransactionInput where
  | baseInput (blockIndex : Nat)
  | keyInput (amount : Nat) (outputIndexes : List Nat) (keyImage : BKeyImage)
  | multisignatureInput (amount : Nat) (signatureCount : Nat) (outputIndex : Nat)
deriving DecidableEq, Inhabited

/-- CryptoNote::TransactionOutputTarget (CryptoNote.h:44-55). -/
inductive TransactionOutputTarget where
  | keyOutput (key : BPublicKey)
  | multisignatureOutput (keys : List BPublicKey) (requiredSignatureCount : Nat)
deriving DecidableEq, Inhabited

/-- CryptoNote::TransactionOutput (CryptoNote.h:57-60). -/
structure TransactionOutput where
  amount : Nat
  target : TransactionOutputTarget
deriving DecidableEq, Inhabited

/-- Shallow model of the opaque tx extra byte string (CryptoNote.h:69): the
engine only ever observes it through getPaymentId and
getMergeMiningTagFromExtra, so it is modelled by those two observations. -/
structure TransactionExtra where
  paymentId : Option BHash
  mergeMiningTag : Bool
deriving DecidableEq, Inhabited

/-- CryptoNote::Transaction (CryptoNote.h:64-74). -/
structure Transaction where
  version : Nat
  unlockTime : Nat
  inputs : List TransactionInput
  outputs : List TransactionOutput
  extra : TransactionExtra
  signatures : List (List BSignature)
deriving DecidableEq, Inhabited

/-- CryptoNote::Block (CryptoNote.h:98-111); the pre-v5 parentBlock
merge-mining envelope is not consulted by any embedded path and is omitted. -/
structure Block where
  majorVersion : Nat
  minorVersion : Nat
  nonce : Nat
  timestamp : Nat
  previousBlockHash : BHash
  baseTransaction : Transaction
  transactionHashes : List BHash
deriving DecidableEq, Inhabited

/-- Blockchain::TransactionIndex (declared in the missing Blockchain.h; its
two fields block and transaction are used throughout Blockchain.cpp,
e.g. lines 2694 and 2719). -/
structure TransactionIndex where
  block : Nat
  transaction : Nat
deriving DecidableEq, Inhabited

/-- Blockchain::TransactionEntry: the transaction together with its assigned
global output indexes (filled in by pushTransaction, Blockchain.cpp:2949). -/
structure TransactionEntry where
  tx : Transaction
  m_global_output_indexes : List Nat
deriving DecidableEq, Inhabited

/-- Blockchain::BlockEntry, the persisted block record (fields as used at
Blockchain.cpp:2672-2748). -/
structure BlockEntry where
  bl : Block
  height : Nat
  block_cumulative_size : Nat
  cumulative_difficulty : Nat
  already_generated_coins : Nat
  transactions : List TransactionEntry
deriving DecidableEq, Inhabited

/-- Blockchain::MultisignatureOutputUsage (used at Blockchain.cpp:2987). -/
structure MultisignatureOutputUsage where
  transactionIndex : TransactionIndex
  outputIndex : Nat
  isUsed : Bool
deriving DecidableEq, Inhabited

/-- Value stored under an o/amount key (Blockchain.cpp OutputsEntry). -/
structure OutputsEntry where
  outputs : List (TransactionIndex × Nat)
deriving DecidableEq, Inhabited

/-- Value stored under an m/amount key (MultisignatureOutputEntry). -/
structure MultisignatureOutputEntry where
  multisignatureOutputs : List MultisignatureOutputUsage
deriving DecidableEq, Inhabited

/-- Value stored under a T/timestamp key (TimestampEntry,
Blockchain.cpp:2786). -/
structure TimestampEntry where
  blocks : List (Nat × BHash)
deriving DecidableEq, Inhabited

/-- Value stored under a p/paymentId key (PaymentIdEntry,
Blockchain.cpp:3007). -/
structure PaymentIdEntry where
  transactionHashes : List BHash
deriving DecidableEq, Inhabited

/-! Persistent store.  Platform::DB is an ordered byte-keyed map; every key
used by Blockchain.cpp is an ASCII prefix plus either one SQLite4 varint
(whose byte order equals numeric order) or one raw binary hash/key-image.
It is therefore modelled as one typed association list per prefix.
put(key, value, true) throws on a duplicate key, put(key, value, false)
overwrites, del(key, true) throws on a missing key, del(key, false) is
silent; get(key) never throws. -/

/-- Point lookup, db.get. -/
def dbGet (m : List (Nat × α)) (k : Nat) : Option α :=
  (m.find? (fun p => p.1 == k)).map (·.2)

/-- Creation-only insert, db.put(key, value, true); none models the thrown
std::runtime_error on a duplicate key. -/
def dbPutMust (m : List (Nat × α)) (k : Nat) (v : α) : Option (List (Nat × α)) :=
  if (dbGet m k).isSome then none else some (m ++ [(k, v)])

/-- Overwriting insert, db.put(key, value, false). -/
def dbPut (m : List (Nat × α)) (k : Nat) (v : α) : List (Nat × α) :=
  if (dbGet m k).isSome then m.map (fun p => if p.1 == k then (k, v) else p)
  else m ++ [(k, v)]

/-- Assertive delete, db.del(key, true); none models the thrown
std::runtime_error on a missing key. -/
def dbDelMust (m : List (Nat × α)) (k : Nat) : Option (List (Nat × α)) :=
  if (dbGet m k).isSome then some (m.filter (fun p => p.1 != k)) else none

/-- Silent delete, db.del(key, false). -/
def dbDel (m : List (Nat × α)) (k : Nat) : List (Nat × α) :=
  m.filter (fun p => p.1 != k)

/-- Reverse-prefix cursor db.rbegin(prefix): the entry with the largest key
in the prefix key-space (keys encode so that byte order equals numeric
order). -/
def dbRbegin (m : List (Nat × α)) : Option (Nat × α) :=
  m.foldl (fun acc p =>
    match acc with
    | none => some p
    | some q => if q.1 ≤ p.1 then some p else some q) none

/-- Typed key-spaces of the blockchain database, one field per key prefix
(Blockchain.cpp key scheme; see the index table also in the specification):
b/ height to block hash, B/hash/b block entries, t/hash transaction indexes,
k/keyImage spent key images (value: spending height), o/amount output lists,
m/amount multisignature output lists, p/paymentId transaction hash lists,
T/timestamp block lists, g/height cumulative generated-transaction counts. -/
structure KbDB where
  blockIndex : List (Nat × BHash)
  blocks : List (BHash × BlockEntry)
  transactionsIndex : List (BHash × TransactionIndex)
  spentKeyImages : List (BKeyImage × Nat)
  outputsIndex : List (Nat × OutputsEntry)
  multisignatureOutputsIndex : List (Nat × MultisignatureOutputEntry)
  paymentIdIndex : List (BHash × PaymentIdEntry)
  timestampIndex : List (Nat × TimestampEntry)
  generatedTransactionsIndex : List (Nat × Nat)
deriving DecidableEq, Inhabited

/-- In-memory state of the Blockchain object: the database plus the cached
height m_height, m_lastGeneratedTxNumber, the alternative-chain map, the
m_synchronized flag, the cached cumulative-size limit, and the transaction
memory pool (an external collaborator holding transactions by hash). -/
structure KbState where
  db : KbDB
  m_height : Nat
  m_lastGeneratedTxNumber : Nat
  m_alternative_chains : List (BHash × BlockEntry)
  m_synchronized : Bool
  m_current_block_cumul_sz_limit : Nat
  pool : List (BHash × Transaction)
deriving DecidableEq, Inhabited

/-- Embedding of Blockchain::getCurrentBlockchainHeight
(Blockchain.cpp:462-467): the cached atomic m_height. -/
def getCurrentBlockchainHeight (s : KbState) : Nat := s.m_height

/-- Embedding of block_verification_context. -/
structure Bvc where
  m_added_to_main_chain : Bool
  m_verification_failed : Bool
  m_marked_as_orphaned : Bool
  m_already_exists : Bool
  m_switched_to_alt_chain : Bool
deriving DecidableEq, Inhabited

/-- Value-initialized block_verification_context. -/
def bvcInit : Bvc :=
  { m_added_to_main_chain := false, m_verification_failed := false,
    m_marked_as_orphaned := false, m_already_exists := false,
    m_switched_to_alt_chain := false }

/-- BLOCK_MAJOR_VERSION_5 consensus constant. -/
def BLOCK_MAJOR_VERSION_5 : Nat := 5

/-- Collaborators of the Blockchain object whose sources are outside src/:
the Currency parameter object, the Checkpoints set, serialization sizes and
object hashes, the cryptographic primitives, and the reorganization executor
switch_to_alternative_blockchain (Blockchain.cpp:1120, exercised by none of
the claims settled here).  Each field keeps the collaborator method name. -/
structure Ctx where
  hashOfBlock : Block → Option BHash
  hashOfTransaction : Transaction → BHash
  txPrefixHash : Transaction → BHash
  binarySize : Transaction → Nat
  blockMajorVersionForHeight : Nat → Nat
  isInCheckpointZone : Nat → Bool
  checkpointAt : Nat → Option BHash
  isAlternativeBlockAllowed : Nat → Nat → Bool
  checkProofOfWork : Block → Nat → Bool
  nextDifficulty : Nat → Nat → List Nat → List Nat → Nat
  difficultyBlocksCountByBlockVersion : Nat → Nat
  timestampCheckWindow : Nat → Nat
  blockFutureTimeLimit : Nat → Nat
  minedMoneyUnlockWindow : Nat
  minedMoneyUnlockWindow_v1 : Nat
  maxBlockHeight : Nat
  lockedTxAllowedDeltaBlocks : Nat
  lockedTxAllowedDeltaSeconds : Nat
  maxBlockCumulativeSize : Nat → Nat
  getBlockReward : Nat → Nat → Nat → Nat → Nat → Option (Nat × Int)
  rewardBlocksWindow : Nat
  blockGrantedFullRewardZoneByBlockVersion : Nat → Nat
  now : Nat
  keyImageDomainOk : BKeyImage → Bool
  checkRingSignature : BHash → BKeyImage → List BPublicKey → List BSignature → Bool
  checkSignature : BHash → BPublicKey → BSignature → Bool
  upgradeHeightV5 : Nat
  switchToAlternative : List BlockEntry → Bool → KbState → Bool × KbState

/-- Block entry fetched by height: b/height gives the hash, B/hash/b the
entry.  Call sites that use this pattern ignore the success of m_db.get and
of fromBinaryArray (for example Blockchain.cpp:1463-1468), so a miss yields
the value-initialized entry, modelled by default. -/
def blockEntryByHeightD (s : KbState) (h : Nat) : BlockEntry :=
  (dbGet s.db.blocks ((dbGet s.db.blockIndex h).getD NULL_HASH)).getD default

/-- Embedding of the free function get_block_height (declared in the missing
CryptoNoteFormatUtils.h; its semantics are evidenced at Blockchain.cpp:2523,
reading the BaseInput blockIndex of the coinbase): the coinbase BaseInput
blockIndex, or 0 when the coinbase is not of that shape. -/
def get_block_height (b : Block) : Nat :=
  match b.baseTransaction.inputs with
  | [TransactionInput.baseInput i] => i
  | _ => 0

/-- Modelled from the spec: check_outs_overflow (declared in the missing
Blockchain.h) realizes the specification's coinbase rule "no output
overflow" (spec 4.C prevalidateCoinbase): the running 64-bit sum of the
output amounts must not overflow, i.e. the total must stay below 2^64. -/
def check_outs_overflow (tx : Transaction) : Bool :=
  decide ((tx.outputs.map (·.amount)).sum < U64)

/-- Embedding of Blockchain::prevalidate_miner_transaction
(Blockchain.cpp:1372-1412), check for check in source order. -/
def prevalidate_miner_transaction (ctx : Ctx) (b : Block) (height : Nat) : Bool :=
  if b.baseTransaction.inputs.length ≠ 1 then false
  else if b.baseTransaction.signatures ≠ [] then false
  else
    match b.baseTransaction.inputs.getD 0 default with
    | TransactionInput.baseInput blockIndex =>
      if blockIndex ≠ height then false
      else if b.baseTransaction.unlockTime ≠ height +
          (if b.majorVersion < BLOCK_MAJOR_VERSION_5 then ctx.minedMoneyUnlockWindow
           else ctx.minedMoneyUnlockWindow_v1) then false
      else check_outs_overflow b.baseTransaction
    | _ => false

/-- C8: a coinbase passes prevalidation exactly when it has a single input,
that input is a BaseInput carrying the block's own height, it has no
signatures, its unlock time is the height plus the version-gated unlock
window (minedMoneyUnlockWindow below major version 5, minedMoneyUnlockWindow_v1
from version 5 on), and its outputs do not overflow a 64-bit sum. -/
theorem prevalidate_miner_transaction_iff (ctx : Ctx) (b : Block) (height : Nat) :
    prevalidate_miner_transaction ctx b height = true ↔
      (b.baseTransaction.inputs = [TransactionInput.baseInput height] ∧
       b.baseTransaction.signatures = [] ∧
       b.baseTransaction.unlockTime = height +
         (if b.majorVersion < BLOCK_MAJOR_VERSION_5 then ctx.minedMoneyUnlockWindow
          else ctx.minedMoneyUnlockWindow_v1) ∧
       (b.baseTransaction.outputs.map (·.amount)).sum < U64) := by
  unfold prevalidate_miner_transaction check_outs_overflow
  rcases hins : b.baseTransaction.inputs with _ | ⟨a, l⟩
  · simp [hins]
  rcases l with _ | ⟨a2, l2⟩
  · cases a <;> simp [hins]
    all_goals tauto
  · simp [hins]

/-- Embedding of Blockchain::getBackwardBlocksSize (Blockchain.cpp:1445-1471):
cumulative sizes of the blocks at heights start_offset .. from_height, where
start_offset keeps at most count blocks; none models the false return when
from_height is not below the blockchain height (the output vector is then
left empty by the caller). -/
def getBackwardBlocksSize (s : KbState) (from_height count : Nat) : Option (List Nat) :=
  if ¬ from_height < s.m_height then none
  else
    let start_offset := (from_height + 1) - min (from_height + 1) count
    some ((List.range' start_offset (from_height + 1 - start_offset)).map
      (fun h => (blockEntryByHeightD s h).block_cumulative_size))

/-- Embedding of Blockchain::get_last_n_blocks_sizes (Blockchain.cpp:1473-1480).
Its callers (validate_miner_transaction, update_next_cumulative_size_limit)
ignore the boolean result, so a failure surfaces as the still-empty vector. -/
def get_last_n_blocks_sizes (s : KbState) (count : Nat) : List Nat :=
  if s.m_height = 0 then []
  else (getBackwardBlocksSize s (s.m_height - 1) count).getD []

/-- Embedding of Blockchain::validate_miner_transaction
(Blockchain.cpp:1414-1443).  Returns the boolean result together with the
reward and emissionChange out-parameters; minerReward accumulates the
coinbase output amounts in uint64_t, hence modulo 2^64; getBlockReward is the
Currency collaborator (its source is outside src/). -/
def validate_miner_transaction (ctx : Ctx) (s : KbState) (b : Block)
    (height cumulativeBlockSize alreadyGeneratedCoins fee : Nat) :
    Bool × Nat × Int :=
  match ctx.getBlockReward (ctx.blockMajorVersionForHeight height)
      (medianValue (get_last_n_blocks_sizes s ctx.rewardBlocksWindow))
      cumulativeBlockSize alreadyGeneratedCoins fee with
  | none => (false, 0, 0)
  | some (reward, emissionChange) =>
    if (b.baseTransaction.outputs.map (·.amount)).sum % U64 > reward then
      (false, reward, emissionChange)
    else if (b.baseTransaction.outputs.map (·.amount)).sum % U64 < reward then
      (false, reward, emissionChange)
    else (true, reward, emissionChange)

/-- C5: outside the checkpoint zone the sum of the coinbase outputs must
equal the computed reward exactly; any larger and any smaller sum (in
particular one atomic unit off in either direction) is rejected.  The
no-overflow hypothesis on the output sum is guaranteed in the block
validation pipeline by prevalidate_miner_transaction, which runs first. -/
theorem validate_miner_transaction_exact (ctx : Ctx) (s : KbState) (b : Block)
    (height cumulativeBlockSize alreadyGeneratedCoins fee r : Nat) (ec : Int)
    (hrw : ctx.getBlockReward (ctx.blockMajorVersionForHeight height)
      (medianValue (get_last_n_blocks_sizes s ctx.rewardBlocksWindow))
      cumulativeBlockSize alreadyGeneratedCoins fee = some (r, ec))
    (hsum : (b.baseTransaction.outputs.map (·.amount)).sum < U64) :
    ((validate_miner_transaction ctx s b height cumulativeBlockSize
        alreadyGeneratedCoins fee).1 = true ↔
      (b.baseTransaction.outputs.map (·.amount)).sum = r) := by
  unfold validate_miner_transaction
  rw [hrw, Nat.mod_eq_of_lt hsum]
  rcases Nat.lt_trichotomy ((b.baseTransaction.outputs.map (·.amount)).sum) r with h | h | h
  · simp [Nat.not_lt.mpr (Nat.le_of_lt h), h, Nat.ne_of_lt h]
  · simp [h]
  · simp [h, Nat.lt_asymm h, (Nat.ne_of_lt h).symm]

/-- Concrete collaborator context used by witness theorems: permissive
cryptography, no checkpoints, fixed windows and a reward function returning
20 plus the fee sum. -/
def ctxW : Ctx where
  hashOfBlock := fun _ => some 1
  hashOfTransaction := fun _ => 1
  txPrefixHash := fun _ => 1
  binarySize := fun _ => 100
  blockMajorVersionForHeight := fun _ => 1
  isInCheckpointZone := fun _ => false
  checkpointAt := fun _ => none
  isAlternativeBlockAllowed := fun _ _ => true
  checkProofOfWork := fun _ _ => true
  nextDifficulty := fun _ _ _ _ => 1
  difficultyBlocksCountByBlockVersion := fun _ => 17
  timestampCheckWindow := fun _ => 3
  blockFutureTimeLimit := fun _ => 100
  minedMoneyUnlockWindow := 10
  minedMoneyUnlockWindow_v1 := 20
  maxBlockHeight := 500000000
  lockedTxAllowedDeltaBlocks := 20
  lockedTxAllowedDeltaSeconds := 86400
  maxBlockCumulativeSize := fun _ => 100000
  getBlockReward := fun _ _ _ _ fee => some (20 + fee, 20)
  rewardBlocksWindow := 8
  blockGrantedFullRewardZoneByBlockVersion := fun _ => 10000
  now := 1000
  keyImageDomainOk := fun _ => true
  checkRingSignature := fun _ _ _ _ => true
  checkSignature := fun _ _ _ => true
  upgradeHeightV5 := 100000
  switchToAlternative := fun _ _ s => (true, s)

/-- Concrete block with a well-formed coinbase for height 1 paying 25. -/
def blockW5 : Block :=
  { majorVersion := 1, minorVersion := 0, nonce := 0, timestamp := 0,
    previousBlockHash := 0,
    baseTransaction :=
      { version := 1, unlockTime := 11,
        inputs := [TransactionInput.baseInput 1],
        outputs := [{ amount := 25, target := TransactionOutputTarget.keyOutput 7 }],
        extra := { paymentId := none, mergeMiningTag := false },
        signatures := [] },
    transactionHashes := [] }

/-- Witness for validate_miner_transaction_exact: with reward 20 + fee and
fee 5, the coinbase of blockW5 paying exactly 25 passes. -/
theorem validate_miner_transaction_exact_witness :
    (validate_miner_transaction ctxW default blockW5 1 200 0 5).1 = true :=
  (validate_miner_transaction_exact ctxW default blockW5 1 200 0 5 25 20
    (by decide) (by decide)).mpr (by decide)

/-- Embedding of Blockchain::check_block_timestamp (Blockchain.cpp:2405-2420):
pass when fewer than timestampCheckWindow(version) timestamps were collected,
otherwise fail exactly when the block timestamp is below their median. -/
def check_block_timestamp (ctx : Ctx) (timestamps : List Nat) (b : Block) : Bool :=
  if timestamps.length < ctx.timestampCheckWindow b.majorVersion then true
  else if b.timestamp < medianValue timestamps then false
  else true

/-- Timestamps of the last timestampCheckWindow(version) main-chain blocks,
as collected by Blockchain::check_block_timestamp_main
(Blockchain.cpp:2376-2392).  The cursor walk over the b/ index from the
computed offset is modelled by direct height lookups over
[offset, m_height), which coincides with it on a contiguous height index. -/
def gatherMainTimestamps (ctx : Ctx) (s : KbState) (version : Nat) : List Nat :=
  let offset := if s.m_height ≤ ctx.timestampCheckWindow version then 0
    else s.m_height - ctx.timestampCheckWindow version
  (List.range' offset (s.m_height - offset)).map
    (fun h => (blockEntryByHeightD s h).bl.timestamp)

/-- Embedding of Blockchain::check_block_timestamp_main
(Blockchain.cpp:2369-2395); get_adjusted_time() is time(NULL), the ctx.now
collaborator value. -/
def check_block_timestamp_main (ctx : Ctx) (s : KbState) (b : Block) : Bool :=
  if b.timestamp > ctx.now + ctx.blockFutureTimeLimit b.majorVersion then false
  else check_block_timestamp ctx (gatherMainTimestamps ctx s b.majorVersion) b

/-- Concrete one-block state: genesis with timestamp 5, entered in the b/,
B/, t/, o/, T/ key-spaces the way pushBlock writes them. -/
def genesisTx : Transaction :=
  { version := 1, unlockTime := 10,
    inputs := [TransactionInput.baseInput 0],
    outputs := [{ amount := 100, target := TransactionOutputTarget.keyOutput 40 }],
    extra := { paymentId := none, mergeMiningTag := false },
    signatures := [] }

def genesisBlock : Block :=
  { majorVersion := 1, minorVersion := 0, nonce := 0, timestamp := 5,
    previousBlockHash := 0, baseTransaction := genesisTx, transactionHashes := [] }

def genesisEntry : BlockEntry :=
  { bl := genesisBlock, height := 0, block_cumulative_size := 100,
    cumulative_difficulty := 1, already_generated_coins := 100,
    transactions := [{ tx := genesisTx, m_global_output_indexes := [0] }] }

/-- Hash value assigned to the genesis block by the concrete contexts. -/
def genesisHash : BHash := 7

def genesisState : KbState :=
  { db :=
      { blockIndex := [(0, genesisHash)]
        blocks := [(genesisHash, genesisEntry)]
        transactionsIndex := [(11, { block := 0, transaction := 0 })]
        spentKeyImages := []
        outputsIndex := [(100, { outputs := [({ block := 0, transaction := 0 }, 0)] })]
        multisignatureOutputsIndex := []
        paymentIdIndex := []
        timestampIndex := [(5, { blocks := [(0, genesisHash)] })]
        generatedTransactionsIndex := [] }
    m_height := 1
    m_lastGeneratedTxNumber := 1
    m_alternative_chains := []
    m_synchronized := true
    m_current_block_cumul_sz_limit := 20000
    pool := [] }

/-- Block used by the C6 counterexample: its timestamp 1101 exceeds
ctxW.now + ctxW.blockFutureTimeLimit = 1100. -/
def blockFarFuture : Block :=
  { majorVersion := 1, minorVersion := 0, nonce := 0, timestamp := 1101,
    previousBlockHash := genesisHash,
    baseTransaction :=
      { version := 1, unlockTime := 11,
        inputs := [TransactionInput.baseInput 1],
        outputs := [{ amount := 20, target := TransactionOutputTarget.keyOutput 41 }],
        extra := { paymentId := none, mergeMiningTag := false },
        signatures := [] },
    transactionHashes := [] }

/-- C6 counterexample: the claim says the timestamp check passes whenever
fewer than TimestampWindow(version) prior timestamps exist, but the
future-time bound of check_block_timestamp_main applies first: with a single
prior timestamp (fewer than the window of 3) a block 1 second beyond
now + FutureTimeLimit is rejected. -/
theorem check_block_timestamp_few_prior_still_rejected :
    (gatherMainTimestamps ctxW genesisState blockFarFuture.majorVersion).length <
      ctxW.timestampCheckWindow blockFarFuture.majorVersion ∧
    check_block_timestamp_main ctxW genesisState blockFarFuture = false := by
  refine ⟨by decide, by decide⟩

/-- C6 (amended): the block timestamp check of the main-chain push accepts a
block exactly when its timestamp is at most now + FutureTimeLimit(version)
and, in case at least TimestampWindow(version) prior timestamps exist, its
timestamp is at least their median; with fewer prior timestamps only the
future-time bound applies.  Equality with the median is accepted and any
smaller timestamp is rejected. -/
theorem check_block_timestamp_main_characterization (ctx : Ctx) (s : KbState)
    (b : Block) :
    check_block_timestamp_main ctx s b = true ↔
      (b.timestamp ≤ ctx.now + ctx.blockFutureTimeLimit b.majorVersion ∧
       ((gatherMainTimestamps ctx s b.majorVersion).length <
          ctx.timestampCheckWindow b.majorVersion ∨
        medianValue (gatherMainTimestamps ctx s b.majorVersion) ≤ b.timestamp)) := by
  unfold check_block_timestamp_main check_block_timestamp
  by_cases h : b.timestamp > ctx.now + ctx.blockFutureTimeLimit b.majorVersion
  · simp only [if_pos h, Bool.false_eq_true, false_iff, not_and]
    intro ha
    exact absurd ha (by omega)
  · rw [if_neg h]
    by_cases h2 : (gatherMainTimestamps ctx s b.majorVersion).length <
        ctx.timestampCheckWindow b.majorVersion
    · simp [h2]
      omega
    · rw [if_neg h2]
      by_cases h3 : b.timestamp <
          medianValue (gatherMainTimestamps ctx s b.majorVersion)
      · simp [h3, h2]
      · simp [h3, h2]
        omega

/-- Embedding of Blockchain::getTailId (Blockchain.cpp:739-753): hash stored
at the largest b/ key, NULL_HASH on an empty chain. -/
def getTailId (s : KbState) : BHash :=
  match dbRbegin s.db.blockIndex with
  | none => NULL_HASH
  | some (_, h) => h

/-- Embedding of Blockchain::haveBlock (Blockchain.cpp:2100-2114): the B/ key
exists or the hash is in the alternative-chain map. -/
def haveBlock (s : KbState) (id : BHash) : Bool :=
  (dbGet s.db.blocks id).isSome ||
    (s.m_alternative_chains.find? (fun p => p.1 == id)).isSome

/-- Embedding of Blockchain::checkIfSpent and have_tx_keyimg_as_spent
(Blockchain.cpp:433-435, 454-460): membership in the k/ key-space. -/
def have_tx_keyimg_as_spent (s : KbState) (keyImage : BKeyImage) : Bool :=
  (dbGet s.db.spentKeyImages keyImage).isSome

/-- Embedding of Blockchain::transactionByIndex (Blockchain.cpp:2543-2563).
All store misses there are logged and ignored, leaving value-initialized
objects, modelled by defaults. -/
def transactionByIndexD (s : KbState) (ti : TransactionIndex) : TransactionEntry :=
  (blockEntryByHeightD s ti.block).transactions.getD ti.transaction default

/-- Embedding of Blockchain::getBlockEntryByHeight with its success flag
(used, checked, at Blockchain.cpp:3256). -/
def getBlockEntryByHeight (s : KbState) (h : Nat) : Option BlockEntry :=
  (dbGet s.db.blockIndex h).bind (dbGet s.db.blocks)

/-- Embedding of Blockchain::getBlockTimestamp (Blockchain.cpp:1005-1013);
the getBlockEntryByHeight result flag is ignored there, a miss leaves the
value-initialized entry with timestamp 0. -/
def getBlockTimestamp (s : KbState) (h : Nat) : Nat :=
  (blockEntryByHeightD s h).bl.timestamp

/-- Embedding of the one-argument Blockchain::is_tx_spendtime_unlocked
(Blockchain.cpp:2270-2289).  getCurrentBlockchainHeight() - 1 is uint32_t
arithmetic, hence the explicit wrap-around. -/
def is_tx_spendtime_unlocked (ctx : Ctx) (s : KbState) (unlock_time : Nat) : Bool :=
  if unlock_time < ctx.maxBlockHeight then
    ((s.m_height + U32 - 1) % U32) + ctx.lockedTxAllowedDeltaBlocks ≥ unlock_time
  else
    getBlockTimestamp s ((s.m_height + U32 - 1) % U32) +
      ctx.lockedTxAllowedDeltaSeconds ≥ unlock_time

/-- Modelled from the spec: relative_output_offsets_to_absolute (in the
missing CryptoNoteFormatUtils) realizes "encoded as deltas, summed to
absolute indices" (spec 4.C checkTransactionInputs); the running sums are
uint32_t, hence the wrap-around. -/
def relative_output_offsets_to_absolute (offs : List Nat) : List Nat :=
  (offs.scanl (fun acc x => (acc + x) % U32) 0).tail

/-- Embedding of Blockchain::scanOutputKeysForIndexes
(Blockchain.cpp:3785-3839) specialized, as at the check_tx_input call site,
to the outputs_visitor of Blockchain.cpp:2304-2328 that collects the one-time
output keys: walks the absolute offsets into the o/amount list, requires
every referenced output to exist, be a KeyOutput and have an unlocked parent
transaction, and updates the max-referenced-height out-parameter on the last
offset only (Blockchain.cpp:3831-3835). -/
def scanOutputKeysCollect (ctx : Ctx) (s : KbState)
    (amountOuts : List (TransactionIndex × Nat)) :
    List Nat → Nat → Nat → Option Nat → Option (List BPublicKey × Option Nat)
  | [], _, _, pmax => some ([], pmax)
  | i :: rest, count, total, pmax =>
    if i ≥ amountOuts.length then none
    else
      let src := amountOuts.getD i default
      let te := transactionByIndexD s src.1
      if ¬ src.2 < te.tx.outputs.length then none
      else if ¬ is_tx_spendtime_unlocked ctx s te.tx.unlockTime then none
      else
        match (te.tx.outputs.getD src.2 default).target with
        | TransactionOutputTarget.keyOutput key =>
          let pmax' :=
            if count = total - 1 then
              pmax.map (fun m => if m < src.1.block then src.1.block else m)
            else pmax
          match scanOutputKeysCollect ctx s amountOuts rest (count + 1) total pmax' with
          | none => none
          | some (keys, pm) => some (key :: keys, pm)
        | _ => none

/-- Embedding of Blockchain::check_tx_input (Blockchain.cpp:2301-2362) for a
KeyInput: small-subgroup key-image check, ring reconstruction through the
o/amount list, size consistency, and the ring signature check (skipped in the
checkpoint zone). -/
def check_tx_input (ctx : Ctx) (s : KbState) (amount : Nat)
    (outputIndexes : List Nat) (keyImage : BKeyImage) (tx_prefix_hash : BHash)
    (sig : List BSignature) (pmax : Option Nat) : Bool × Option Nat :=
  if ¬ ctx.keyImageDomainOk keyImage then (false, pmax)
  else
    match dbGet s.db.outputsIndex amount with
    | none => (false, pmax)
    | some oe =>
      let offsets := relative_output_offsets_to_absolute outputIndexes
      match scanOutputKeysCollect ctx s oe.outputs offsets 0 offsets.length pmax with
      | none => (false, pmax)
      | some (output_keys, pmax') =>
        if outputIndexes.length ≠ output_keys.length then (false, pmax')
        else if sig.length ≠ output_keys.length then (false, pmax')
        else if ctx.isInCheckpointZone (getCurrentBlockchainHeight s) then (true, pmax')
        else (ctx.checkRingSignature tx_prefix_hash keyImage output_keys sig, pmax')

/-- Signature-counting loop of Blockchain::validateInput
(Blockchain.cpp:3277-3291): walk the output keys, consuming one signature per
successful verification; fail when the keys run out first. -/
def msigVerifyLoop (ctx : Ctx) (prefixHash : BHash) :
    List BPublicKey → List BSignature → Nat → Bool
  | _, _, 0 => true
  | [], _, _ + 1 => false
  | k :: krest, sigs, n + 1 =>
    if ctx.checkSignature prefixHash k (sigs.getD 0 0) then
      msigVerifyLoop ctx prefixHash krest (sigs.drop 1) n
    else msigVerifyLoop ctx prefixHash krest sigs (n + 1)

/-- Embedding of Blockchain::validateInput for MultisignatureInput
(Blockchain.cpp:3224-3294). -/
def validateInput (ctx : Ctx) (s : KbState) (amount signatureCount outputIndex : Nat)
    (txPrefixHash : BHash) (transactionSignatures : List BSignature) : Bool :=
  match dbGet s.db.multisignatureOutputsIndex amount with
  | none => false
  | some me =>
    if outputIndex ≥ me.multisignatureOutputs.length then false
    else
      let outputUsage := me.multisignatureOutputs.getD outputIndex default
      if outputUsage.isUsed then false
      else
        match getBlockEntryByHeight s outputUsage.transactionIndex.block with
        | none => false
        | some e =>
          let outputTransaction :=
            (e.transactions.getD outputUsage.transactionIndex.transaction default).tx
          if ¬ is_tx_spendtime_unlocked ctx s outputTransaction.unlockTime then false
          else
            match (outputTransaction.outputs.getD outputUsage.outputIndex default).target with
            | TransactionOutputTarget.multisignatureOutput keys requiredSignatureCount =>
              if signatureCount ≠ requiredSignatureCount then false
              else msigVerifyLoop ctx txPrefixHash keys transactionSignatures signatureCount
            | _ => false

/-- Modelled from the spec: checkMultisignatureInputsDiff (declared in the
missing Blockchain.h) realizes "double spend within a transaction" rejection
for multisignature inputs (spec 4.D transaction indexing): the
(amount, outputIndex) pairs of the MultisignatureInputs must be pairwise
distinct. -/
def checkMultisignatureInputsDiff (tx : Transaction) : Bool :=
  decide (tx.inputs.filterMap (fun i =>
    match i with
    | TransactionInput.multisignatureInput a _ o => some (a, o)
    | _ => none)).Nodup

/-- Per-input walk of Blockchain::checkTransactionInputs
(Blockchain.cpp:2223-2268): KeyInputs need non-empty outputIndexes, an
unspent key image, and (outside the checkpoint zone) check_tx_input;
MultisignatureInputs are checked by validateInput outside the checkpoint
zone; any other input type fails. -/
def checkTransactionInputsLoop (ctx : Ctx) (s : KbState) (tx : Transaction)
    (tx_prefix_hash : BHash) :
    List TransactionInput → Nat → Option Nat → Bool × Option Nat
  | [], _, pmax => (true, pmax)
  | txin :: rest, inputIndex, pmax =>
    match txin with
    | TransactionInput.keyInput amount outputIndexes keyImage =>
      if outputIndexes = [] then (false, pmax)
      else if have_tx_keyimg_as_spent s keyImage then (false, pmax)
      else if ¬ ctx.isInCheckpointZone (getCurrentBlockchainHeight s) then
        match check_tx_input ctx s amount outputIndexes keyImage tx_prefix_hash
            (tx.signatures.getD inputIndex []) pmax with
        | (false, pmax') => (false, pmax')
        | (true, pmax') =>
          checkTransactionInputsLoop ctx s tx tx_prefix_hash rest (inputIndex + 1) pmax'
      else checkTransactionInputsLoop ctx s tx tx_prefix_hash rest (inputIndex + 1) pmax
    | TransactionInput.multisignatureInput amount sigCount outputIndex =>
      if ¬ ctx.isInCheckpointZone (getCurrentBlockchainHeight s) then
        if ¬ validateInput ctx s amount sigCount outputIndex tx_prefix_hash
            (tx.signatures.getD inputIndex []) then (false, pmax)
        else checkTransactionInputsLoop ctx s tx tx_prefix_hash rest (inputIndex + 1) pmax
      else checkTransactionInputsLoop ctx s tx tx_prefix_hash rest (inputIndex + 1) pmax
    | TransactionInput.baseInput _ => (false, pmax)

/-- Embedding of the two- and three-argument Blockchain::checkTransactionInputs
overloads (Blockchain.cpp:2218-2268); the prefix hash is computed from the
transaction, and the max-used-height out-parameter is reset to 0 when
present. -/
def checkTransactionInputs (ctx : Ctx) (s : KbState) (tx : Transaction)
    (pmax0 : Option Nat) : Bool × Option Nat :=
  checkTransactionInputsLoop ctx s tx (ctx.txPrefixHash tx) tx.inputs 0
    (pmax0.map (fun _ => 0))

/-- Modelled from the spec: getInputAmount (in the missing
CryptoNoteFormatUtils) realizes the input side of "fee = input-sum −
output-sum" (spec 4.D step 8); uint64_t accumulation wraps modulo 2^64. -/
def getInputAmount (tx : Transaction) : Nat :=
  (tx.inputs.map (fun i =>
    match i with
    | TransactionInput.keyInput a _ _ => a
    | TransactionInput.multisignatureInput a _ _ => a
    | TransactionInput.baseInput _ => 0)).sum % U64

/-- Modelled from the spec: getOutputAmount, the output side of the fee
computation, with the same 64-bit wrap. -/
def getOutputAmount (tx : Transaction) : Nat :=
  ((tx.outputs.map (·.amount)).sum) % U64

/-- Undo loop of the key-image insertion failure path of
Blockchain::pushTransaction (Blockchain.cpp:2910-2914): the already inserted
key images of the preceding inputs are deleted in reverse order.  The source
applies boost::get of KeyInput to every preceding input, so a non-key
preceding input raises boost::bad_get, and del with the assert flag raises on
a missing key; both escape as exceptions (the error case, carrying the
database at the throw point). -/
def undoKeyImages : List TransactionInput → KbDB → Except KbDB KbDB
  | [], db => .ok db
  | TransactionInput.keyInput _ _ ki :: rest, db =>
    match dbDelMust db.spentKeyImages ki with
    | some m => undoKeyImages rest { db with spentKeyImages := m }
    | none => .error db
  | _ :: _, db => .error db

/-- Key-image insertion loop of Blockchain::pushTransaction
(Blockchain.cpp:2886-2922): each KeyInput key image is inserted with the
creation-only put; a duplicate raises, is caught, the previously inserted key
images are undone in reverse, and false is reported (the caller then also
removes the t/ record).  The first argument accumulates the already processed
inputs in reverse order. -/
def pushTxKeyImages (blockHeight : Nat) :
    List TransactionInput → List TransactionInput → KbDB → Except KbDB (Bool × KbDB)
  | _, [], db => .ok (true, db)
  | done, inp :: rest, db =>
    match inp with
    | TransactionInput.keyInput _ _ ki =>
      match dbPutMust db.spentKeyImages ki blockHeight with
      | some m =>
        pushTxKeyImages blockHeight (inp :: done) rest { db with spentKeyImages := m }
      | none =>
        match undoKeyImages done db with
        | .ok db2 => .ok (false, db2)
        | .error db2 => .error db2
    | _ => pushTxKeyImages blockHeight (inp :: done) rest db

/-- Used-flag marking loop for MultisignatureInputs of
Blockchain::pushTransaction (Blockchain.cpp:2924-2947).  When the m/amount
entry is missing the source indexes the empty vector of a fresh entry, which
is undefined behavior (vector::operator[] out of range); that branch is the
error case and is never exercised by the concrete states in this file.  An
out-of-range outputIndex on an existing entry is likewise undefined behavior
in the source; List.set models it as a no-op. -/
def pushTxMarkMultisig : List TransactionInput → KbDB → Except KbDB KbDB
  | [], db => .ok db
  | TransactionInput.multisignatureInput amount _ outputIndex :: rest, db =>
    (match dbGet db.multisignatureOutputsIndex amount with
     | some me =>
       let usage := { me.multisignatureOutputs.getD outputIndex default with isUsed := true }
       let me2 : MultisignatureOutputEntry :=
         { multisignatureOutputs := me.multisignatureOutputs.set outputIndex usage }
       let m2 := dbPut db.multisignatureOutputsIndex amount me2
       pushTxMarkMultisig rest { db with multisignatureOutputsIndex := m2 }
     | none => .error db)
  | _ :: rest, db => pushTxMarkMultisig rest db

/-- Output indexing loop of Blockchain::pushTransaction
(Blockchain.cpp:2949-3000): each KeyOutput is appended to the o/amount list
and each MultisignatureOutput to the m/amount list (creating the entry when
absent), recording the pre-append list length as the output's global index.
Returns the global output indexes in order together with the new database. -/
def pushTxOutputs (transactionIndex : TransactionIndex) :
    List TransactionOutput → Nat → KbDB → List Nat → List Nat × KbDB
  | [], _, db, acc => (acc.reverse, db)
  | out :: rest, outputIdx, db, acc =>
    match out.target with
    | TransactionOutputTarget.keyOutput _ =>
      let oe := (dbGet db.outputsIndex out.amount).getD { outputs := [] }
      let gidx := oe.outputs.length
      let oe2 : OutputsEntry := { outputs := oe.outputs ++ [(transactionIndex, outputIdx)] }
      let m2 := dbPut db.outputsIndex out.amount oe2
      pushTxOutputs transactionIndex rest (outputIdx + 1)
        { db with outputsIndex := m2 } (gidx :: acc)
    | TransactionOutputTarget.multisignatureOutput _ _ =>
      let me := (dbGet db.multisignatureOutputsIndex out.amount).getD
        { multisignatureOutputs := [] }
      let gidx := me.multisignatureOutputs.length
      let me2 : MultisignatureOutputEntry :=
        { multisignatureOutputs := me.multisignatureOutputs ++
            [{ transactionIndex := transactionIndex, outputIndex := outputIdx,
               isUsed := false }] }
      let m2 := dbPut db.multisignatureOutputsIndex out.amount me2
      pushTxOutputs transactionIndex rest (outputIdx + 1)
        { db with multisignatureOutputsIndex := m2 } (gidx :: acc)

/-- Payment-id indexing of Blockchain::pushTransaction
(Blockchain.cpp:3002-3033): append the transaction hash to the p/paymentId
entry, creating it when absent. -/
def pushTxPaymentId (tx : Transaction) (transactionHash : BHash) (db : KbDB) : KbDB :=
  match tx.extra.paymentId with
  | none => db
  | some pid =>
    match dbGet db.paymentIdIndex pid with
    | none =>
      let m2 := dbPut db.paymentIdIndex pid { transactionHashes := [transactionHash] }
      { db with paymentIdIndex := m2 }
    | some pe =>
      let pe2 : PaymentIdEntry :=
        { transactionHashes := pe.transactionHashes ++ [transactionHash] }
      let m2 := dbPut db.paymentIdIndex pid pe2
      { db with paymentIdIndex := m2 }

/-- Embedding of Blockchain::pushTransaction (Blockchain.cpp:2856-3036).
Returns the boolean result, the block entry updated with the transaction's
global output indexes, and the new database.  Note the false returns leave
any index mutations already performed before the failing step in place,
exactly as the source does. -/
def pushTransaction (block : BlockEntry) (transactionHash : BHash)
    (transactionIndex : TransactionIndex) (db : KbDB) :
    Except KbDB (Bool × BlockEntry × KbDB) :=
  match dbPutMust db.transactionsIndex transactionHash transactionIndex with
  | none => .ok (false, block, db)
  | some tmap =>
    let db1 := { db with transactionsIndex := tmap }
    let transaction := block.transactions.getD transactionIndex.transaction default
    if ¬ checkMultisignatureInputsDiff transaction.tx then
      match dbDelMust db1.transactionsIndex transactionHash with
      | some tmap2 => .ok (false, block, { db1 with transactionsIndex := tmap2 })
      | none => .error db1
    else
      match pushTxKeyImages block.height [] transaction.tx.inputs db1 with
      | .error db2 => .error db2
      | .ok (false, db2) =>
        match dbDelMust db2.transactionsIndex transactionHash with
        | some tmap2 => .ok (false, block, { db2 with transactionsIndex := tmap2 })
        | none => .error db2
      | .ok (true, db2) =>
        match pushTxMarkMultisig transaction.tx.inputs db2 with
        | .error db3 => .error db3
        | .ok db3 =>
          match pushTxOutputs transactionIndex transaction.tx.outputs 0 db3 [] with
          | (gindexes, db4) =>
            let db5 := pushTxPaymentId transaction.tx transactionHash db4
            let transaction2 := { transaction with m_global_output_indexes := gindexes }
            let txs2 := block.transactions.set transactionIndex.transaction transaction2
            let block2 := { block with transactions := txs2 }
            .ok (true, block2, db5)

/-- Output un-indexing loop of Blockchain::popTransaction
(Blockchain.cpp:3046-3152), walking the outputs last to first (the list
argument carries each output with its position).  All consistency-check
failures are logged and skipped (continue).  When the popped entry becomes
empty its o/ or m/ key is deleted; otherwise the source pops the last element
of the local deserialized copy only and never writes the shrunken entry back
to the database, so the database keeps the un-popped list (this faithful
transcription preserves that defect). -/
def popTxOutputs (transactionIndex : TransactionIndex) :
    List (Nat × TransactionOutput) → KbDB → Except KbDB KbDB
  | [], db => .ok db
  | (pos, output) :: rest, db =>
    match output.target with
    | TransactionOutputTarget.keyOutput _ =>
      (match dbGet db.outputsIndex output.amount with
       | none => popTxOutputs transactionIndex rest db
       | some oe =>
         match oe.outputs.getLast? with
         | none => popTxOutputs transactionIndex rest db
         | some back =>
           if back.1.block ≠ transactionIndex.block ∨
              back.1.transaction ≠ transactionIndex.transaction then
             popTxOutputs transactionIndex rest db
           else if back.2 ≠ pos then popTxOutputs transactionIndex rest db
           else if oe.outputs.dropLast = [] then
             match dbDelMust db.outputsIndex output.amount with
             | some m => popTxOutputs transactionIndex rest { db with outputsIndex := m }
             | none => .error db
           else popTxOutputs transactionIndex rest db)
    | TransactionOutputTarget.multisignatureOutput _ _ =>
      (match dbGet db.multisignatureOutputsIndex output.amount with
       | none => popTxOutputs transactionIndex rest db
       | some me =>
         match me.multisignatureOutputs.getLast? with
         | none => popTxOutputs transactionIndex rest db
         | some back =>
           if back.isUsed then popTxOutputs transactionIndex rest db
           else if back.transactionIndex.block ≠ transactionIndex.block ∨
              back.transactionIndex.transaction ≠ transactionIndex.transaction then
             popTxOutputs transactionIndex rest db
           else if back.outputIndex ≠ pos then popTxOutputs transactionIndex rest db
           else if me.multisignatureOutputs.dropLast = [] then
             match dbDelMust db.multisignatureOutputsIndex output.amount with
             | some m =>
               popTxOutputs transactionIndex rest
                 { db with multisignatureOutputsIndex := m }
             | none => .error db
           else popTxOutputs transactionIndex rest db)

/-- Input un-indexing loop of Blockchain::popTransaction
(Blockchain.cpp:3154-3193).  For a KeyInput the k/ record is deleted with the
assert flag, which raises when it is missing (the preceding unchecked get
only logs); for a MultisignatureInput the source reads the entry (indexing it
out of range is undefined behavior, the error case), resets the local isUsed
flag and never writes the entry back (defect preserved). -/
def popTxInputs : List TransactionInput → KbDB → Except KbDB KbDB
  | [], db => .ok db
  | TransactionInput.keyInput _ _ ki :: rest, db =>
    (match dbDelMust db.spentKeyImages ki with
     | some m => popTxInputs rest { db with spentKeyImages := m }
     | none => .error db)
  | TransactionInput.multisignatureInput amount _ outputIndex :: rest, db =>
    (match dbGet db.multisignatureOutputsIndex amount with
     | none => popTxInputs rest db
     | some me =>
       if outputIndex ≥ me.multisignatureOutputs.length then .error db
       else popTxInputs rest db)
  | TransactionInput.baseInput _ :: rest, db => popTxInputs rest db

/-- Embedding of Blockchain::popTransaction (Blockchain.cpp:3038-3214):
resolve the transaction index (missing: logged early return), un-index the
outputs in reverse, delete the spent key images, delete the whole p/ entry
when the transaction carries a payment id, and delete the t/ record (the
assert-flagged delete is wrapped in try/catch there, so a failure only
logs). -/
def popTransaction (transaction : Transaction) (transactionHash : BHash)
    (db : KbDB) : Except KbDB KbDB :=
  match dbGet db.transactionsIndex transactionHash with
  | none => .ok db
  | some transactionIndex => do
    let db ← popTxOutputs transactionIndex transaction.outputs.enum.reverse db
    let db ← popTxInputs transaction.inputs db
    let db :=
      match transaction.extra.paymentId with
      | some pid => { db with paymentIdIndex := dbDel db.paymentIdIndex pid }
      | none => db
    pure { db with transactionsIndex := dbDel db.transactionsIndex transactionHash }

/-- Embedding of Blockchain::popTransactions (Blockchain.cpp:3216-3222): pop
the transactions of a block in reverse order, the coinbase last.  The loop
runs i over [0, size-1) for size = block.transactions.size() and pairs
transactions[size-1-i] with transactionHashes[size-2-i]; an out-of-range
index (a hash list shorter than size-1, undefined behavior in the source) is
rendered by getD with a default. -/
def popTransactions (block : BlockEntry) (minerTransactionHash : BHash)
    (db : KbDB) : Except KbDB KbDB := do
  let size := block.transactions.length
  let db ← (List.range (size - 1)).foldlM (fun d i =>
    popTransaction ((block.transactions.getD (size - 1 - i) default).tx)
      (block.bl.transactionHashes.getD (size - 2 - i) NULL_HASH) d) db
  popTransaction block.bl.baseTransaction minerTransactionHash db

/-- Result state of an operation that may have thrown: the state as of the
throw point for the error case (C++ exceptions do not roll anything back). -/
def stateOf (e : Except KbState KbState) : KbState :=
  match e with
  | .ok s => s
  | .error s => s

/-- Whether the operation completed without an escaping exception. -/
def isOkE (e : Except KbState KbState) : Bool :=
  match e with
  | .ok _ => true
  | .error _ => false

/-- Embedding of Blockchain::removeLastBlock (Blockchain.cpp:3319-3357), database
and m_lastGeneratedTxNumber part.  Transcribed defects: the local height is
the top b/ key plus one (Blockchain.cpp:3327), so the g/ delete (line 3345,
silent) and the b/ delete (line 3353, assert-flagged, hence a throw) address
height+1 instead of the top height. -/
def removeLastBlockCore (ctx : Ctx) (db0 : KbDB) (lastGenIn : Nat) :
    Except (KbDB × Nat) (KbDB × Nat) :=
  match dbRbegin db0.blockIndex with
  | none => .ok (db0, lastGenIn)
  | some (topKey, blockHash) =>
    let height := topKey + 1
    let e := (dbGet db0.blocks blockHash).getD default
    match popTransactions e (ctx.hashOfTransaction e.bl.baseTransaction) db0 with
    | .error db1 => .error (db1, lastGenIn)
    | .ok db1 =>
      let db2 := { db1 with timestampIndex := dbDel db1.timestampIndex e.bl.timestamp }
      let lastGen := lastGenIn - (e.bl.transactionHashes.length + 1)
      let db3 :=
        { db2 with generatedTransactionsIndex := dbDel db2.generatedTransactionsIndex height }
      match dbDelMust db3.blocks blockHash with
      | none => .error (db3, lastGen)
      | some bmap =>
        let db4 := { db3 with blocks := bmap }
        match dbDelMust db4.blockIndex height with
        | none => .error (db4, lastGen)
        | some bimap => .ok ({ db4 with blockIndex := bimap }, lastGen)

/-- State-level wrapper of removeLastBlock: on the paths that complete, the
source stores temp_height-- into m_height, whose value is the undecremented
temp_height, so m_height is written back unchanged (and an escaping
exception leaves it untouched as well). -/
def removeLastBlock (ctx : Ctx) (s : KbState) : Except KbState KbState :=
  match removeLastBlockCore ctx s.db s.m_lastGeneratedTxNumber with
  | .error (db, lg) => .error { s with db := db, m_lastGeneratedTxNumber := lg }
  | .ok (db, lg) =>
    let temp_height := s.m_height
    .ok { s with db := db, m_lastGeneratedTxNumber := lg, m_height := temp_height }

/-- Modelled from the spec: tx_memory_pool::add_tx (the pool collaborator is
outside this tree; spec 6 gives its boundary contract, with add absorbing
restored transactions).  The pool is the hash-keyed list; add appends the
transaction under its hash and cannot fail in the model, so a source branch
on a failed add is dead here. -/
def add_tx (ctx : Ctx) (t : Transaction) (s : KbState) : KbState :=
  { s with pool := s.pool ++ [(ctx.hashOfTransaction t, t)] }

/-- Embedding of Blockchain::saveTransactions (Blockchain.cpp:3752-3759):
add transactions[size-1-i] back to the pool for each i, that is, restore the
given transactions in reverse order; a failed add is only logged (and the
modelled add cannot fail). -/
def saveTransactions (ctx : Ctx) (transactions : List Transaction) (s : KbState) : KbState :=
  transactions.reverse.foldl (fun st t => add_tx ctx t st) s

/-- Embedding of Blockchain::popBlock (Blockchain.cpp:2825-2854): read the
top block entry, hand its non-coinbase transactions back to the pool, then
removeLastBlock. -/
def popBlock (ctx : Ctx) (s : KbState) : Except KbState KbState :=
  match dbRbegin s.db.blockIndex with
  | none => .ok s
  | some (_, blockHash) =>
    let e := (dbGet s.db.blocks blockHash).getD default
    let transactions := (e.transactions.drop 1).map (·.tx)
    removeLastBlock ctx (saveTransactions ctx transactions s)

/-- Modelled from the spec: tx_memory_pool::take_tx (the pool collaborator
is outside this tree; spec 6 gives its boundary contract): remove and return
the transaction with the given hash, when present.  The transaction size and
fee out-parameters are unused by the caller and have no model. -/
def poolTake (h : BHash) : List (BHash × Transaction) →
    Option (Transaction × List (BHash × Transaction))
  | [] => none
  | (h2, t) :: rest =>
    if h2 == h then some (t, rest)
    else
      match poolTake h rest with
      | none => none
      | some (t2, rest2) => some (t2, (h2, t) :: rest2)

/-- Take loop of Blockchain::loadTransactions (Blockchain.cpp:3735-3749):
take each hash in order, accumulating the taken transactions last taken
first; when take_tx fails at index i, add transactions[i-1-j] back to the
pool for j < i — the already-taken transactions, last taken first, which is
the accumulator folded front to back.  A failed re-add would throw
(Blockchain.cpp:3741), but the modelled add cannot fail. -/
def loadTransactionsGo (ctx : Ctx) :
    List BHash → List Transaction → KbState →
    Option (List Transaction) × KbState
  | [], taken, s => (some taken.reverse, s)
  | h :: rest, taken, s =>
    match poolTake h s.pool with
    | some (t, pool2) => loadTransactionsGo ctx rest (t :: taken) { s with pool := pool2 }
    | none => (none, taken.foldl (fun st t => add_tx ctx t st) s)

/-- Embedding of Blockchain::loadTransactions (Blockchain.cpp:3732-3750):
take each transaction referenced by the block out of the pool in hash order
(tx_memory_pool::take_tx, modelled by poolTake); when one is missing,
restore the already-taken transactions to the pool in reverse order and
report failure (none), otherwise return them in hash order. -/
def loadTransactions (ctx : Ctx) (block : Block) (s : KbState) :
    Option (List Transaction) × KbState :=
  loadTransactionsGo ctx block.transactionHashes [] s

/-- Embedding of the storage-level Blockchain::pushBlock(BlockEntry, hash)
(Blockchain.cpp:2772-2823): write the B/ record and the b/ height entry
(creation-only), update the T/ timestamp entry, bump
m_lastGeneratedTxNumber and write the g/ record for a non-genesis block, and
store m_height = height + 1.  Transcribed defect: when a T/ entry already
exists for the timestamp, the freshly built entry is overwritten by parsing
the existing bytes, so the existing entry is rewritten unchanged and the new
block is never appended to it (Blockchain.cpp:2785-2797).  The commit
cadence (lines 2808-2818) tunes durability only and has no model. -/
def pushBlockEntry (block : BlockEntry) (blockHash : BHash) (s : KbState) :
    Except KbState KbState :=
  match dbPutMust s.db.blocks blockHash block with
  | none => .error s
  | some bmap =>
    let db1 := { s.db with blocks := bmap }
    match dbPutMust db1.blockIndex block.height blockHash with
    | none => .error { s with db := db1 }
    | some bimap =>
      let db2 := { db1 with blockIndex := bimap }
      let tse : TimestampEntry := { blocks := [(block.height, blockHash)] }
      let db3 :=
        match dbGet db2.timestampIndex block.bl.timestamp with
        | none =>
          let m2 := dbPut db2.timestampIndex block.bl.timestamp tse
          { db2 with timestampIndex := m2 }
        | some existing =>
          let m2 := dbPut db2.timestampIndex block.bl.timestamp existing
          { db2 with timestampIndex := m2 }
      if block.height > 0 then
        let lastGen := s.m_lastGeneratedTxNumber + (block.bl.transactionHashes.length + 1)
        match dbPutMust db3.generatedTransactionsIndex block.height lastGen with
        | none => .error { s with db := db3, m_lastGeneratedTxNumber := lastGen }
        | some gmap =>
          let db4 := { db3 with generatedTransactionsIndex := gmap }
          .ok { s with db := db4, m_lastGeneratedTxNumber := lastGen,
                       m_height := block.height + 1 }
      else .ok { s with db := db3, m_height := block.height + 1 }

/-- Embedding of Blockchain::getDifficultyForNextBlock
(Blockchain.cpp:933-965): gather timestamps and cumulative difficulties of
the blocks at heights [offset, m_height) (offset skips the genesis) and hand
them to the version-specific Currency::nextDifficulty collaborator. -/
def getDifficultyForNextBlock (ctx : Ctx) (s : KbState) : Nat :=
  let version := ctx.blockMajorVersionForHeight s.m_height
  let offset0 := s.m_height - min s.m_height (ctx.difficultyBlocksCountByBlockVersion version)
  let offset := if offset0 = 0 then 1 else offset0
  let entries := (List.range' offset (s.m_height - offset)).map (blockEntryByHeightD s)
  ctx.nextDifficulty s.m_height version (entries.map (·.bl.timestamp))
    (entries.map (·.cumulative_difficulty))

/-- Embedding of Blockchain::checkCumulativeBlockSize
(Blockchain.cpp:2455-2465). -/
def checkCumulativeBlockSize (ctx : Ctx) (cumulativeBlockSize height : Nat) : Bool :=
  cumulativeBlockSize ≤ ctx.maxBlockCumulativeSize height

/-- Embedding of Blockchain::update_next_cumulative_size_limit
(Blockchain.cpp:2482-2496): twice the median of the last rewardBlocksWindow
block sizes, floored at the full-reward zone of the next block version. -/
def update_next_cumulative_size_limit (ctx : Ctx) (s : KbState) : KbState :=
  let nextBlockMajorVersion := ctx.blockMajorVersionForHeight s.m_height
  let zone := ctx.blockGrantedFullRewardZoneByBlockVersion nextBlockMajorVersion
  let median := medianValue (get_last_n_blocks_sizes s ctx.rewardBlocksWindow)
  let median2 := if median ≤ zone then zone else median
  { s with m_current_block_cumul_sz_limit := median2 * 2 }

/-- Modelled from the spec: the two-argument Checkpoints::check_block of the
missing Checkpoints sources (spec 4.D step 5: inside the checkpoint zone,
verify the block's hash matches the checkpoint for its height): heights
without a configured checkpoint pass. -/
def checkpoints_check_block (ctx : Ctx) (height : Nat) (id : BHash) : Bool :=
  match ctx.checkpointAt height with
  | none => true
  | some hh => hh == id

/-- Embedding of Blockchain::checkBlockVersion (Blockchain.cpp:2422-2432):
the major version must equal the one the upgrade schedule dictates for the
block's height. -/
def checkBlockVersion (ctx : Ctx) (b : Block) : Bool :=
  b.majorVersion == ctx.blockMajorVersionForHeight (get_block_height b)

/-- Per-transaction loop of the main Blockchain::pushBlock overload
(Blockchain.cpp:2700-2724): index each transaction (hash paired with body;
the source reads transactionHashes[i]), accumulate the binary sizes and the
fees; outside the checkpoint zone failing checkTransactionInputs pops all
transactions pushed so far (including the coinbase) and reports verification
failure (the first result component none); the boolean result of
pushTransaction is ignored by the source (line 2720), defect preserved. -/
def pushBlockTxsLoop (ctx : Ctx) (minerTransactionHash : BHash) :
    List (BHash × Transaction) → BlockEntry → Nat → Nat → Nat → KbState →
    Except KbState (Option (BlockEntry × Nat × Nat) × KbState)
  | [], block, _, cumSize, feeSum, s => .ok (some (block, cumSize, feeSum), s)
  | (tx_id, tx) :: rest, block, txPos, cumSize, feeSum, s =>
    let block1 :=
      { block with transactions := block.transactions ++ [{ tx := tx, m_global_output_indexes := [] }] }
    let blob_size := ctx.binarySize tx
    let fee := (getInputAmount tx + U64 - getOutputAmount tx) % U64
    if ¬ ctx.isInCheckpointZone (getCurrentBlockchainHeight s) ∧
        ¬ (checkTransactionInputs ctx s tx none).1 then
      let blockPopped := { block1 with transactions := block1.transactions.dropLast }
      match popTransactions blockPopped minerTransactionHash s.db with
      | .error db2 => .error { s with db := db2 }
      | .ok db2 => .ok (none, { s with db := db2 })
    else
      match pushTransaction block1 tx_id { block := block1.height, transaction := txPos + 1 } s.db with
      | .error db2 => .error { s with db := db2 }
      | .ok (_ignored, block2, db2) =>
        pushBlockTxsLoop ctx minerTransactionHash rest block2 (txPos + 1)
          (cumSize + blob_size) ((feeSum + fee) % U64) { s with db := db2 }

/-- Embedding of the main Blockchain::pushBlock overload
(Blockchain.cpp:2580-2769): version check, v5 merge-mining-tag rejection,
previous-hash check, timestamp check and PoW (checkpoint hash inside the
checkpoint zone), coinbase prevalidation, then transaction indexing, size
check, reward validation (skipped inside the checkpoint zone by the
short-circuit at line 2734, the emissionChange out-parameter then keeping
its zero initialization), and the storage push.  Transcribed defect: the
boolean results of pushTransaction for the coinbase (line 2695) and for each
transaction (line 2720) are ignored, so a transaction whose indexing fails
(for example a duplicate key image inside one transaction) does not stop the
block from being added. -/
def pushBlockMain (ctx : Ctx) (blockData : Block) (transactions : List Transaction)
    (blockHash : BHash) (bvc : Bvc) (s : KbState) :
    Except KbState (Bool × Bvc × KbState) :=
  if ¬ checkBlockVersion ctx blockData then
    .ok (false, { bvc with m_verification_failed := true }, s)
  else if blockData.majorVersion ≥ BLOCK_MAJOR_VERSION_5 ∧
      blockData.baseTransaction.extra.mergeMiningTag then
    .ok (false, bvc, s)
  else if blockData.previousBlockHash ≠ getTailId s then
    .ok (false, { bvc with m_verification_failed := true }, s)
  else if ¬ ctx.isInCheckpointZone (getCurrentBlockchainHeight s) ∧
      ¬ check_block_timestamp_main ctx s blockData then
    .ok (false, { bvc with m_verification_failed := true }, s)
  else
    let currentDifficulty := getDifficultyForNextBlock ctx s
    if currentDifficulty = 0 then .ok (false, bvc, s)
    else if ctx.isInCheckpointZone (getCurrentBlockchainHeight s) ∧
        ¬ checkpoints_check_block ctx (getCurrentBlockchainHeight s) blockHash then
      .ok (false, { bvc with m_verification_failed := true }, s)
    else if ¬ ctx.isInCheckpointZone (getCurrentBlockchainHeight s) ∧
        ¬ ctx.checkProofOfWork blockData currentDifficulty then
      .ok (false, { bvc with m_verification_failed := true }, s)
    else if ¬ ctx.isInCheckpointZone (getCurrentBlockchainHeight s) ∧
        ¬ prevalidate_miner_transaction ctx blockData s.m_height then
      .ok (false, { bvc with m_verification_failed := true }, s)
    else
      let minerTransactionHash := ctx.hashOfTransaction blockData.baseTransaction
      let tailKV := dbRbegin s.db.blockIndex
      let newHeight := match tailKV with | none => 0 | some (k, _) => k + 1
      let s1 := { s with m_height := newHeight }
      let e := match tailKV with
        | none => (default : BlockEntry)
        | some (_, h) => (dbGet s1.db.blocks h).getD default
      let block0 : BlockEntry :=
        { bl := blockData, height := newHeight, block_cumulative_size := 0,
          cumulative_difficulty := 0, already_generated_coins := 0,
          transactions := [{ tx := blockData.baseTransaction, m_global_output_indexes := [] }] }
      match pushTransaction block0 minerTransactionHash
          { block := newHeight, transaction := 0 } s1.db with
      | .error db1 => .error { s1 with db := db1 }
      | .ok (_ignoredCoinbase, block1, db1) =>
        let s2 := { s1 with db := db1 }
        let coinbase_blob_size := ctx.binarySize blockData.baseTransaction
        match pushBlockTxsLoop ctx minerTransactionHash
            (blockData.transactionHashes.zip transactions) block1 0
            coinbase_blob_size 0 s2 with
        | .error s3 => .error s3
        | .ok (none, s3) => .ok (false, { bvc with m_verification_failed := true }, s3)
        | .ok (some (block2, cumulative_block_size, fee_summary), s3) =>
          if ¬ checkCumulativeBlockSize ctx cumulative_block_size s3.m_height then
            .ok (false, { bvc with m_verification_failed := true }, s3)
          else
            let already_generated_coins :=
              match tailKV with | none => 0 | some _ => e.already_generated_coins
            if ¬ ctx.isInCheckpointZone (getCurrentBlockchainHeight s3) ∧
                ¬ (validate_miner_transaction ctx s3 blockData s3.m_height
                    cumulative_block_size already_generated_coins fee_summary).1 then
              match popTransactions block2 minerTransactionHash s3.db with
              | .error db4 => .error { s3 with db := db4 }
              | .ok db4 =>
                .ok (false, { bvc with m_verification_failed := true },
                  { s3 with db := db4 })
            else
              let emissionChange : Int :=
                if ctx.isInCheckpointZone (getCurrentBlockchainHeight s3) then 0
                else (validate_miner_transaction ctx s3 blockData s3.m_height
                    cumulative_block_size already_generated_coins fee_summary).2.2
              let block3 :=
                { block2 with
                  block_cumulative_size := cumulative_block_size,
                  cumulative_difficulty :=
                    currentDifficulty +
                      (match tailKV with | none => 0 | some _ => e.cumulative_difficulty),
                  already_generated_coins :=
                    (((already_generated_coins : Int) + emissionChange).emod (U64 : Int)).toNat }
              match pushBlockEntry block3 blockHash s3 with
              | .error s4 => .error s4
              | .ok s4 =>
                .ok (true, { bvc with m_added_to_main_chain := true },
                  update_next_cumulative_size_limit ctx s4)

/-- Modelled from the spec: the getTransactions template of the missing
Blockchain.h (interface at ICore.h:104) resolves each hash to a confirmed
transaction via the t/ index, then (when checkTxPool, as used by
getBlockCumulativeSize) to a pool transaction, and otherwise reports it
missed. -/
def getTransactionsWithPool (s : KbState) : List BHash → List Transaction × List BHash
  | [] => ([], [])
  | h :: rest =>
    match dbGet s.db.transactionsIndex h with
    | some ti =>
      let (txs, missed) := getTransactionsWithPool s rest
      ((transactionByIndexD s ti).tx :: txs, missed)
    | none =>
      match (s.pool.find? (fun p => p.1 == h)).map (·.2) with
      | some t =>
        let (txs, missed) := getTransactionsWithPool s rest
        (t :: txs, missed)
      | none =>
        let (txs, missed) := getTransactionsWithPool s rest
        (txs, h :: missed)

/-- Embedding of Blockchain::getBlockCumulativeSize
(Blockchain.cpp:2468-2479): coinbase binary size plus the binary sizes of
the resolvable transactions; the precision flag (missed empty) is only
logged by the caller. -/
def getBlockCumulativeSize (ctx : Ctx) (s : KbState) (block : Block) : Nat × Bool :=
  let (blockTxs, missedTxs) := getTransactionsWithPool s block.transactionHashes
  (ctx.binarySize block.baseTransaction + (blockTxs.map ctx.binarySize).sum,
   missedTxs.isEmpty)

/-- Embedding of Blockchain::getBlockHeight (Blockchain.cpp:916-931): the
height field of the B/ record. -/
def getBlockHeightOpt (s : KbState) (blockId : BHash) : Option Nat :=
  (dbGet s.db.blocks blockId).map (·.height)

/-- Lookup in the in-memory alternative-chain map. -/
def altFind (s : KbState) (h : BHash) : Option BlockEntry :=
  (s.m_alternative_chains.find? (fun p => p.1 == h)).map (·.2)

/-- Descending collection loop of Blockchain::complete_timestamps_vector
(Blockchain.cpp:1495-1515): do-while from the start height down, stopping
after pushing height stop+1 (or height 0), or early when a block record is
missing (the source then returns false, which the callers ignore, leaving
the partially extended vector). -/
def ctvGo (s : KbState) (stop : Nat) : Nat → List Nat → List Nat
  | 0, acc =>
    match getBlockEntryByHeight s 0 with
    | none => acc
    | some e => acc ++ [e.bl.timestamp]
  | h + 1, acc =>
    match getBlockEntryByHeight s (h + 1) with
    | none => acc
    | some e =>
      let acc2 := acc ++ [e.bl.timestamp]
      if h = stop then acc2 else ctvGo s stop h acc2

/-- Embedding of Blockchain::complete_timestamps_vector
(Blockchain.cpp:1486-1517): extend the timestamps with main-chain timestamps
walking down from start_top_height until the window is in reach. -/
def complete_timestamps_vector (ctx : Ctx) (s : KbState)
    (blockMajorVersion start_top_height : Nat) (timestamps : List Nat) : List Nat :=
  if timestamps.length ≥ ctx.timestampCheckWindow blockMajorVersion then timestamps
  else if ¬ start_top_height < s.m_height then timestamps
  else
    let need_elements := ctx.timestampCheckWindow blockMajorVersion - timestamps.length
    let stop_offset := if start_top_height > need_elements
      then start_top_height - need_elements else 0
    ctvGo s stop_offset start_top_height timestamps

/-- Embedding of Blockchain::get_next_difficulty_for_alternative_chain
(Blockchain.cpp:1305-1370): when the alternative chain is shorter than the
difficulty window, prefix main-chain data up to the split (skipping the
genesis), append the alternative entries and call Currency::nextDifficulty;
an over-long gather returns difficulty 0 (the source's false); a long enough
alternative chain uses its newest windowful alone. -/
def get_next_difficulty_for_alternative_chain (ctx : Ctx) (s : KbState)
    (altChain : List BlockEntry) (bei : BlockEntry) : Nat :=
  let version := ctx.blockMajorVersionForHeight s.m_height
  let n := ctx.difficultyBlocksCountByBlockVersion version
  if altChain.length < n then
    let stop := match altChain.head? with
      | some front => front.height
      | none => bei.height
    let cnt := min (n - min n altChain.length) stop
    let start0 := stop - cnt
    let start := if start0 = 0 then 1 else start0
    let mainEntries := (List.range' start (stop - start)).map (blockEntryByHeightD s)
    if ¬ altChain.length + mainEntries.length ≤ n then 0
    else
      ctx.nextDifficulty s.m_height version
        (mainEntries.map (·.bl.timestamp) ++ altChain.map (·.bl.timestamp))
        (mainEntries.map (·.cumulative_difficulty) ++ altChain.map (·.cumulative_difficulty))
  else
    let taken := altChain.drop (altChain.length - min altChain.length n)
    ctx.nextDifficulty s.m_height version (taken.map (·.bl.timestamp))
      (taken.map (·.cumulative_difficulty))

/-- Backward walk of Blockchain::handle_alternative_block
(Blockchain.cpp:1573-1580) assembling the alternative subchain front-to-back
(oldest first) and the timestamps in visit order (newest first).  The walk is
bounded by the alternative-chain map size (the map is acyclic by
construction in the source). -/
def collectAltChain (s : KbState) :
    Nat → Option BlockEntry → List BlockEntry → List Nat → List BlockEntry × List Nat
  | 0, _, chain, tss => (chain, tss)
  | _ + 1, none, chain, tss => (chain, tss)
  | fuel + 1, some bei, chain, tss =>
    collectAltChain s fuel (altFind s bei.bl.previousBlockHash)
      (bei :: chain) (tss ++ [bei.bl.timestamp])

/-- Arbitration tail of Blockchain::handle_alternative_block
(Blockchain.cpp:1689-1726): a checkpointed height forces reorganization;
otherwise reorganize exactly when the main tip's cumulative difficulty is
strictly below the candidate's; otherwise keep the block as alternative. -/
inductive AltDecision where
  | reorganize (checkpointForced : Bool)
  | addedAsAlternative
deriving DecidableEq

def altTipArbitration (is_a_checkpoint : Bool)
    (tipCumulativeDifficulty beiCumulativeDifficulty : Nat) : AltDecision :=
  if is_a_checkpoint then AltDecision.reorganize true
  else if tipCumulativeDifficulty < beiCumulativeDifficulty then
    AltDecision.reorganize false
  else AltDecision.addedAsAlternative

/-- Embedding of Blockchain::handle_alternative_block
(Blockchain.cpp:1519-1735).  The reorganization executor
switch_to_alternative_blockchain is the ctx.switchToAlternative collaborator;
observer and message side effects have no model. -/
def handle_alternative_block (ctx : Ctx) (b : Block) (id : BHash) (bvc : Bvc)
    (s : KbState) : Bool × Bvc × KbState :=
  let block_height := get_block_height b
  if block_height = 0 then
    (false, { bvc with m_verification_failed := true }, s)
  else if ¬ ctx.isAlternativeBlockAllowed (getCurrentBlockchainHeight s) block_height then
    (false, { bvc with m_verification_failed := true }, s)
  else if ¬ checkBlockVersion ctx b then
    (false, { bvc with m_verification_failed := true }, s)
  else
    let cumulativeSize := (getBlockCumulativeSize ctx s b).1
    if ¬ checkCumulativeBlockSize ctx cumulativeSize block_height then
      (false, { bvc with m_verification_failed := true }, s)
    else
      let mainPrevOpt := getBlockHeightOpt s b.previousBlockHash
      let it_prev := altFind s b.previousBlockHash
      if it_prev.isSome ∨ mainPrevOpt.isSome then
        let mainPrevHeight := mainPrevOpt.getD 0
        let (alt_chain, timestamps0) :=
          collectAltChain s (s.m_alternative_chains.length + 1) it_prev [] []
        let connect : Option (List Nat) :=
          match alt_chain.head? with
          | some front =>
            if ¬ s.m_height > front.height then none
            else
              match dbGet s.db.blockIndex (front.height - 1) with
              | none => none
              | some h =>
                if h ≠ front.bl.previousBlockHash then none
                else some (complete_timestamps_vector ctx s b.majorVersion
                  (front.height - 1) timestamps0)
          | none =>
            if ¬ mainPrevOpt.isSome then none
            else some (complete_timestamps_vector ctx s b.majorVersion
              mainPrevHeight timestamps0)
        match connect with
        | none => (false, bvc, s)
        | some timestamps =>
          if ¬ check_block_timestamp ctx timestamps b then
            (false, { bvc with m_verification_failed := true }, s)
          else
            let beiHeight := match alt_chain.getLast? with
              | some prevEntry => prevEntry.height + 1
              | none => mainPrevHeight + 1
            if ¬ checkpoints_check_block ctx beiHeight id then
              (false, { bvc with m_verification_failed := true }, s)
            else if b.majorVersion ≥ BLOCK_MAJOR_VERSION_5 ∧
                b.baseTransaction.extra.mergeMiningTag then
              (false, bvc, s)
            else
              let bei0 : BlockEntry :=
                { bl := b, height := beiHeight, block_cumulative_size := 0,
                  cumulative_difficulty := 0, already_generated_coins := 0,
                  transactions := [] }
              let current_diff := get_next_difficulty_for_alternative_chain ctx s alt_chain bei0
              if current_diff = 0 then (false, bvc, s)
              else if ¬ ctx.checkProofOfWork b current_diff then
                (false, { bvc with m_verification_failed := true }, s)
              else if ¬ prevalidate_miner_transaction ctx b beiHeight then
                (false, { bvc with m_verification_failed := true }, s)
              else
                match (dbGet s.db.blockIndex mainPrevHeight).bind (dbGet s.db.blocks) with
                | none => (false, bvc, s)
                | some e =>
                  let parentCd := match alt_chain.getLast? with
                    | some prevEntry => prevEntry.cumulative_difficulty
                    | none => e.cumulative_difficulty
                  let bei : BlockEntry := { bei0 with cumulative_difficulty := parentCd + current_diff }
                  if (altFind s id).isSome then (false, bvc, s)
                  else
                    let s2 := { s with m_alternative_chains := s.m_alternative_chains ++ [(id, bei)] }
                    let alt_chain2 := alt_chain ++ [bei]
                    let tip_be := ((dbRbegin s2.db.blockIndex).bind
                      (fun kv => dbGet s2.db.blocks kv.2)).getD default
                    let is_a_checkpoint := (ctx.checkpointAt beiHeight).isSome
                    match altTipArbitration is_a_checkpoint tip_be.cumulative_difficulty
                        bei.cumulative_difficulty with
                    | AltDecision.reorganize forced =>
                      (match ctx.switchToAlternative alt_chain2 forced s2 with
                       | (true, s3) =>
                         (true, { bvc with m_added_to_main_chain := true,
                                           m_switched_to_alt_chain := true }, s3)
                       | (false, s3) =>
                         (false, { bvc with m_verification_failed := true }, s3))
                    | AltDecision.addedAsAlternative => (true, bvc, s2)
      else
        (true, { bvc with m_marked_as_orphaned := true }, s)

/-- Embedding of the pool-draining Blockchain::pushBlock overload
(Blockchain.cpp:2565-2578): drain the referenced transactions from the pool,
push, and restore them to the pool when the push fails. -/
def pushBlockFromPool (ctx : Ctx) (blockData : Block) (id : BHash) (bvc : Bvc)
    (s : KbState) : Except KbState (Bool × Bvc × KbState) :=
  match loadTransactions ctx blockData s with
  | (none, s1) => .ok (false, { bvc with m_verification_failed := true }, s1)
  | (some transactions, s1) =>
    match pushBlockMain ctx blockData transactions id bvc s1 with
    | .error e => .error e
    | .ok (false, bvc2, s2) => .ok (false, bvc2, saveTransactions ctx transactions s2)
    | .ok (true, bvc2, s2) => .ok (true, bvc2, s2)

/-- Embedding of Blockchain::addNewBlock (Blockchain.cpp:2498-2541), the
ingest entry point: hash the block (failure: verification failed), report
already-exists for a hash on the main chain or in the alternative map, then
dispatch on whether the block extends the current tail.  Observer and
message side effects have no model. -/
def addNewBlock (ctx : Ctx) (bl : Block) (s : KbState) :
    Except KbState (Bool × Bvc × KbState) :=
  match ctx.hashOfBlock bl with
  | none => .ok (false, { bvcInit with m_verification_failed := true }, s)
  | some id =>
    if haveBlock s id then .ok (false, { bvcInit with m_already_exists := true }, s)
    else if bl.previousBlockHash ≠ getTailId s then
      .ok (handle_alternative_block ctx bl id bvcInit s)
    else pushBlockFromPool ctx bl id bvcInit s

/-- Boolean success projection of an ingest result: completed without an
exception, returned true and reported added-to-main-chain. -/
def excResultOk (e : Except KbState (Bool × Bvc × KbState)) : Bool :=
  match e with
  | .ok (r, bvc, _) => r && bvc.m_added_to_main_chain
  | .error _ => false

/-- Verification-failed flag of an ingest result (true for an escaped
exception, which never reports verification failure). -/
def excResultVf (e : Except KbState (Bool × Bvc × KbState)) : Bool :=
  match e with
  | .ok (_, bvc, _) => bvc.m_verification_failed
  | .error _ => false

/-- State projection of an ingest result (the throw-point state for the
error case). -/
def excResultState (e : Except KbState (Bool × Bvc × KbState)) : KbState :=
  match e with
  | .ok (_, _, s) => s
  | .error s => s

/-- Context for the concrete push/pop scenarios: block hashes are derived
from the timestamp (the genesis keeps genesisHash), transaction hashes from
the unlock time, and the reward is 100 plus the fee sum. -/
def ctx2 : Ctx :=
  { ctxW with
    hashOfBlock := fun b => some (if b.timestamp = 5 then genesisHash else b.timestamp * 10)
    hashOfTransaction := fun t => t.unlockTime + 1
    getBlockReward := fun _ _ _ _ fee => some (100 + fee, 100) }

/-- Well-formed successor block of the genesis: coinbase for height 1 paying
the full reward of 100 into a key output of amount 100 (the same amount as
the genesis coinbase output, so the o/100 list is non-empty before the
push). -/
def blockB1 : Block :=
  { majorVersion := 1, minorVersion := 0, nonce := 0, timestamp := 50,
    previousBlockHash := genesisHash,
    baseTransaction :=
      { version := 1, unlockTime := 11,
        inputs := [TransactionInput.baseInput 1],
        outputs := [{ amount := 100, target := TransactionOutputTarget.keyOutput 41 }],
        extra := { paymentId := none, mergeMiningTag := false },
        signatures := [] },
    transactionHashes := [] }

/-- State reached by pushing blockB1 onto the genesis state. -/
def pushedB1State : KbState :=
  excResultState (pushBlockMain ctx2 blockB1 [] 500 bvcInit genesisState)

/-- C3: a pop of the tip block does not decrease the reported blockchain
height.  First part: for every state, after removeLastBlock (normal return
or escaped exception) getCurrentBlockchainHeight is unchanged, because the
final store writes the post-decrement expression temp_height--, i.e. the
original value (Blockchain.cpp:3355-3356).  Second part, at the concrete
two-block chain obtained by pushing blockB1 onto the genesis: the height
stays 2 (and in fact the pop aborts with an exception on its mis-keyed
height-index delete), so a loop such as rollbackBlockchainTo
(Blockchain.cpp:3313-3317) that pops until the height reaches a target can
never terminate by reaching it. -/
theorem removeLastBlock_never_decreases_height :
    (∀ (ctx : Ctx) (s : KbState),
      getCurrentBlockchainHeight (stateOf (removeLastBlock ctx s)) =
        getCurrentBlockchainHeight s) ∧
    (getCurrentBlockchainHeight pushedB1State = 2 ∧
     isOkE (removeLastBlock ctx2 pushedB1State) = false ∧
     getCurrentBlockchainHeight (stateOf (removeLastBlock ctx2 pushedB1State)) = 2) := by
  constructor
  · intro ctx s
    unfold removeLastBlock
    cases h : removeLastBlockCore ctx s.db s.m_lastGeneratedTxNumber with
    | error p => rfl
    | ok p => rfl
  · exact ⟨by decide, by decide, by decide⟩

/-- C2: push/pop is not a round trip.  Pushing blockB1 (whose coinbase adds
a second output of amount 100) onto the genesis succeeds; popping it first
fails to restore the o/100 entry, because popTransaction only pops the last
element of its local copy and never writes the shrunken entry back
(Blockchain.cpp:3089-3095), and then aborts with an exception on the
mis-keyed assert-flagged b/ delete (Blockchain.cpp:3327, 3353).  The o/100
key therefore still holds both outputs after the pop instead of its
pre-push value. -/
theorem push_then_pop_not_roundtrip :
    excResultOk (pushBlockMain ctx2 blockB1 [] 500 bvcInit genesisState) = true ∧
    isOkE (removeLastBlock ctx2 pushedB1State) = false ∧
    dbGet (stateOf (removeLastBlock ctx2 pushedB1State)).db.outputsIndex 100 =
      some { outputs := [({ block := 0, transaction := 0 }, 0),
                         ({ block := 1, transaction := 0 }, 0)] } ∧
    dbGet genesisState.db.outputsIndex 100 =
      some { outputs := [({ block := 0, transaction := 0 }, 0)] } := by
  exact ⟨by decide, by decide, by decide, by decide⟩

/-- Transaction spending the same key image 55 with two of its KeyInputs;
each input references the genesis coinbase output of amount 100 as its ring
(one relative offset 0) and carries one ring signature. -/
def txDoubleKI : Transaction :=
  { version := 1, unlockTime := 0,
    inputs := [TransactionInput.keyInput 100 [0] 55,
               TransactionInput.keyInput 100 [0] 55],
    outputs := [{ amount := 150, target := TransactionOutputTarget.keyOutput 42 }],
    extra := { paymentId := none, mergeMiningTag := false },
    signatures := [[9], [9]] }

/-- Block at height 1 carrying txDoubleKI (its hash under ctx2 is 1); the
coinbase pays reward 100 plus the fee 50. -/
def blockB2 : Block :=
  { majorVersion := 1, minorVersion := 0, nonce := 0, timestamp := 50,
    previousBlockHash := genesisHash,
    baseTransaction :=
      { version := 1, unlockTime := 11,
        inputs := [TransactionInput.baseInput 1],
        outputs := [{ amount := 150, target := TransactionOutputTarget.keyOutput 43 }],
        extra := { paymentId := none, mergeMiningTag := false },
        signatures := [] },
    transactionHashes := [1] }

/-- Genesis state whose memory pool holds txDoubleKI. -/
def stateC1 : KbState := { genesisState with pool := [(1, txDoubleKI)] }

/-- C1: ingesting a block whose transaction spends the same key image twice
is not rejected.  checkTransactionInputs only consults the persisted k/
index (Blockchain.cpp:2238), which contains neither occurrence yet; the
duplicate is then caught inside pushTransaction (the creation-only k/ put
throws, Blockchain.cpp:2903-2920), which undoes its own inserts and returns
false, but pushBlock ignores that return value (lines 2695, 2720, and the
TODO at 2748), so the block is reported added to the main chain with no
verification failure, and afterwards the key image is not even recorded as
spent (so a later transaction could spend it again). -/
theorem duplicate_key_image_block_accepted :
    excResultOk (addNewBlock ctx2 blockB2 stateC1) = true ∧
    excResultVf (addNewBlock ctx2 blockB2 stateC1) = false ∧
    dbGet (excResultState (addNewBlock ctx2 blockB2 stateC1)).db.blockIndex 1 =
      some 500 ∧
    ((dbGet (excResultState (addNewBlock ctx2 blockB2 stateC1)).db.blocks 500).map
      (fun e => e.transactions.map (·.tx))) =
      some [blockB2.baseTransaction, txDoubleKI] ∧
    have_tx_keyimg_as_spent (excResultState (addNewBlock ctx2 blockB2 stateC1)) 55 = false := by
  refine ⟨by decide, by decide, by decide, by decide, by decide⟩

/-- C7: ingesting a block whose hash is already known (on the main chain or
as an alternative) reports already-exists, does not report success or
verification failure, and leaves the state (store, indices, alternative
map, cached height, pool) untouched: addNewBlock returns before any
mutation (Blockchain.cpp:2513-2517). -/
theorem addNewBlock_already_exists (ctx : Ctx) (bl : Block) (s : KbState)
    (id : BHash) (hid : ctx.hashOfBlock bl = some id)
    (hhave : haveBlock s id = true) :
    addNewBlock ctx bl s =
      .ok (false, { bvcInit with m_already_exists := true }, s) := by
  unfold addNewBlock
  rw [hid]
  simp [hhave]

/-- Witness for addNewBlock_already_exists: re-ingesting the genesis block
into the genesis state. -/
def ctxGenesisHash : Ctx := { ctx2 with hashOfBlock := fun _ => some genesisHash }

theorem addNewBlock_already_exists_witness :
    addNewBlock ctxGenesisHash genesisBlock genesisState =
      .ok (false, { bvcInit with m_already_exists := true }, genesisState) :=
  addNewBlock_already_exists ctxGenesisHash genesisBlock genesisState genesisHash
    (by rfl) (by decide)

/-- C4: with no checkpoint forcing it, handle_alternative_block invokes the
reorganization (switch_to_alternative_blockchain) exactly when the
alternative tip's cumulative difficulty strictly exceeds the main tip's
(Blockchain.cpp:1702: tip_be.cumulative_difficulty <
bei.cumulative_difficulty); equal cumulative difficulty keeps the block as
an alternative. -/
theorem altTipArbitration_strict_difficulty (tipCd beiCd : Nat) :
    (altTipArbitration false tipCd beiCd = AltDecision.reorganize false ↔
      tipCd < beiCd) ∧
    (tipCd = beiCd →
      altTipArbitration false tipCd beiCd = AltDecision.addedAsAlternative) := by
  unfold altTipArbitration
  constructor
  · by_cases h : tipCd < beiCd
    · simp [h]
    · simp [h]
  · intro he
    simp [he]

/-- Witness for altTipArbitration_strict_difficulty: equal difficulty 5 is
kept as alternative, 5 against 6 reorganizes. -/
theorem altTipArbitration_strict_difficulty_witness :
    altTipArbitration false 5 5 = AltDecision.addedAsAlternative ∧
    altTipArbitration false 5 6 = AltDecision.reorganize false :=
  ⟨(altTipArbitration_strict_difficulty 5 5).2 rfl,
   (altTipArbitration_strict_difficulty 5 6).1.mpr (by decide)⟩

/-- Scan of Blockchain::find_end_of_allowed_index (Blockchain.cpp:1875-1890)
from the last index down: return i+1 for the first (highest) index whose
containing block is old enough to be unlocked, with the unlock window gated
on the block height against UPGRADE_HEIGHT_V5; 0 when none is. -/
def findEndUnlockedAt (ctx : Ctx) (s : KbState)
    (amount_outs : List (TransactionIndex × Nat)) (i : Nat) : Bool :=
  let blk := (amount_outs.getD i default).1.block
  blk + (if blk < ctx.upgradeHeightV5 then ctx.minedMoneyUnlockWindow
         else ctx.minedMoneyUnlockWindow_v1) ≤ getCurrentBlockchainHeight s

def findEndGo (ctx : Ctx) (s : KbState)
    (amount_outs : List (TransactionIndex × Nat)) : Nat → Nat
  | 0 => if findEndUnlockedAt ctx s amount_outs 0 then 1 else 0
  | i + 1 =>
    if findEndUnlockedAt ctx s amount_outs (i + 1) then i + 2
    else findEndGo ctx s amount_outs i

def find_end_of_allowed_index (ctx : Ctx) (s : KbState)
    (amount_outs : List (TransactionIndex × Nat)) : Nat :=
  if amount_outs.isEmpty then 0
  else findEndGo ctx s amount_outs (amount_outs.length - 1)

/-- Response entry COMMAND_RPC_GET_RANDOM_OUTPUTS_FOR_AMOUNTS::out_entry:
the global index into the o/amount list and the one-time output key. -/
structure OutEntry where
  global_amount_index : Nat
  out_key : BPublicKey
deriving DecidableEq, Inhabited

/-- Embedding of Blockchain::add_out_to_get_random_outs
(Blockchain.cpp:1856-1873): resolve the i-th output of the amount list,
require a valid output index, a KeyOutput target and an unlocked parent
transaction, and emit (i, key); none models the false return (nothing
appended). -/
def add_out_to_get_random_outs (ctx : Ctx) (s : KbState)
    (amount_outs : List (TransactionIndex × Nat)) (i : Nat) : Option OutEntry :=
  if ¬ (amount_outs.getD i default).2 <
      (transactionByIndexD s (amount_outs.getD i default).1).tx.outputs.length then none
  else
    match ((transactionByIndexD s (amount_outs.getD i default).1).tx.outputs.getD
        (amount_outs.getD i default).2 default).target with
    | TransactionOutputTarget.keyOutput key =>
      if ¬ is_tx_spendtime_unlocked ctx s
          (transactionByIndexD s (amount_outs.getD i default).1).tx.unlockTime then none
      else some { global_amount_index := i, out_key := key }
    | _ => none

/-- Index computation of the sampling loop (Blockchain.cpp:1926-1929):
r = randomValue mod 2^53, frac = sqrt(r / 2^53) in [0,1), i = frac * up
truncated.  In exact real arithmetic floor(up * sqrt(r / 2^53)) =
floor(sqrt(r * up^2 / 2^53)) = Nat.sqrt of the floor of r * up^2 / 2^53
(floor and square root commute on nonnegative reals), which is the form
used here; the double-precision computation of the source agrees on every
argument exercised in this file. -/
def sampleIndex (rand up : Nat) : Nat :=
  Nat.sqrt (rand % 2 ^ 53 * up * up / 2 ^ 53)

/-- Sampling loop of Blockchain::getRandomOutsByAmount
(Blockchain.cpp:1920-1937): draw indices below up_index_limit from the
triangular distribution, skip already-used ones without counting a try, and
stop after outs_count additions or up_index_limit distinct tries.  The
random stream is an explicit argument; its exhaustion stops the loop (the
source draws indefinitely, so a finite stream is a fuel bound). -/
def randomOutsSampleLoop (ctx : Ctx) (s : KbState)
    (amount_outs : List (TransactionIndex × Nat)) (outs_count up : Nat) :
    List Nat → List Nat → Nat → Nat → List OutEntry → List OutEntry
  | [], _, _, _, acc => acc
  | r :: rest, used, j, try_count, acc =>
    if j ≠ outs_count ∧ try_count < up then
      if sampleIndex r up ∈ used then
        randomOutsSampleLoop ctx s amount_outs outs_count up rest used j try_count acc
      else
        match add_out_to_get_random_outs ctx s amount_outs (sampleIndex r up) with
        | some oen =>
          randomOutsSampleLoop ctx s amount_outs outs_count up rest
            (sampleIndex r up :: used) (j + 1) (try_count + 1) (acc ++ [oen])
        | none =>
          randomOutsSampleLoop ctx s amount_outs outs_count up rest
            (sampleIndex r up :: used) j (try_count + 1) acc
    else acc

/-- Enumeration branch of Blockchain::getRandomOutsByAmount
(Blockchain.cpp:1938-1942): try every index of the unlocked prefix in
order. -/
def allowedPrefixOuts (ctx : Ctx) (s : KbState)
    (amount_outs : List (TransactionIndex × Nat)) (up : Nat) : List OutEntry :=
  (List.range up).foldl (fun acc i =>
    match add_out_to_get_random_outs ctx s amount_outs i with
    | some oen => acc ++ [oen]
    | none => acc) []

/-- Embedding of the per-amount body of Blockchain::getRandomOutsByAmount
(Blockchain.cpp:1895-1943): a missing o/amount entry leaves the response
empty; otherwise compute the unlocked prefix bound and either sample (when
the WHOLE amount list is longer than the requested count,
Blockchain.cpp:1920) or enumerate the unlocked prefix; none models the
internal-error false return. -/
def getRandomOutsForAmount (ctx : Ctx) (s : KbState) (amount outs_count : Nat)
    (rng : List Nat) : Option (List OutEntry) :=
  match dbGet s.db.outputsIndex amount with
  | none => some []
  | some oe =>
    if ¬ find_end_of_allowed_index ctx s oe.outputs ≤ oe.outputs.length then none
    else if oe.outputs.length > outs_count then
      some (randomOutsSampleLoop ctx s oe.outputs outs_count
        (find_end_of_allowed_index ctx s oe.outputs) rng [] 0 0 [])
    else some (allowedPrefixOuts ctx s oe.outputs
      (find_end_of_allowed_index ctx s oe.outputs))

/-- The claim's version of the branch rule, which differs from the source
only in the branch predicate: sample when the UNLOCKED PREFIX holds more
than the requested count of candidates, otherwise return all unlocked
candidates. -/
def getRandomOutsForAmountClaimed (ctx : Ctx) (s : KbState) (amount outs_count : Nat)
    (rng : List Nat) : Option (List OutEntry) :=
  match dbGet s.db.outputsIndex amount with
  | none => some []
  | some oe =>
    if ¬ find_end_of_allowed_index ctx s oe.outputs ≤ oe.outputs.length then none
    else if find_end_of_allowed_index ctx s oe.outputs > outs_count then
      some (randomOutsSampleLoop ctx s oe.outputs outs_count
        (find_end_of_allowed_index ctx s oe.outputs) rng [] 0 0 [])
    else some (allowedPrefixOuts ctx s oe.outputs
      (find_end_of_allowed_index ctx s oe.outputs))

/-- Sampled indices stay strictly below the unlocked bound: with r < 2^53,
floor(sqrt(r / 2^53) * up) < up. -/
theorem sampleIndex_lt (rand up : Nat) (hup : 0 < up) : sampleIndex rand up < up := by
  unfold sampleIndex
  rw [Nat.sqrt_lt]
  rw [Nat.div_lt_iff_lt_mul (by norm_num : (0 : Nat) < 2 ^ 53)]
  have h1 : rand % 2 ^ 53 < 2 ^ 53 := Nat.mod_lt _ (by norm_num)
  have hupup : 0 < up * up := Nat.mul_pos hup hup
  calc rand % 2 ^ 53 * up * up = rand % 2 ^ 53 * (up * up) := by ring
    _ < 2 ^ 53 * (up * up) := by
        exact Nat.mul_lt_mul_of_lt_of_le h1 (le_refl _) hupup
    _ = up * up * 2 ^ 53 := by ring

/-- A successful add_out_to_get_random_outs emits exactly the requested
global index. -/
theorem add_out_index (ctx : Ctx) (s : KbState)
    (amount_outs : List (TransactionIndex × Nat)) (i : Nat) (e : OutEntry)
    (h : add_out_to_get_random_outs ctx s amount_outs i = some e) :
    e.global_amount_index = i := by
  unfold add_out_to_get_random_outs at h
  split at h
  · cases h
  · split at h
    · split at h
      · cases h
      · cases h
        rfl
    · cases h

/-- Every run of the sampling loop keeps its output indices strictly below
the unlocked bound, pairwise distinct, and at most outs_count long. -/
theorem randomOutsSampleLoop_sound (ctx : Ctx) (s : KbState)
    (amount_outs : List (TransactionIndex × Nat)) (outs_count up : Nat)
    (rng : List Nat) :
    ∀ (used : List Nat) (j try_count : Nat) (acc : List OutEntry),
      j = acc.length →
      acc.length ≤ outs_count →
      (∀ e ∈ acc, e.global_amount_index < up) →
      (∀ e ∈ acc, e.global_amount_index ∈ used) →
      (acc.map (·.global_amount_index)).Nodup →
      ((∀ e ∈ randomOutsSampleLoop ctx s amount_outs outs_count up rng used j try_count acc,
          e.global_amount_index < up) ∧
       ((randomOutsSampleLoop ctx s amount_outs outs_count up rng used j try_count acc).map
          (·.global_amount_index)).Nodup ∧
       (randomOutsSampleLoop ctx s amount_outs outs_count up rng used j try_count acc).length ≤
          outs_count) := by
  induction rng with
  | nil =>
    intro used j tc acc hj hlen hlt hused hnd
    exact ⟨hlt, hnd, hlen⟩
  | cons r rest ih =>
    intro used j tc acc hj hlen hlt hused hnd
    unfold randomOutsSampleLoop
    by_cases hguard : j ≠ outs_count ∧ tc < up
    · rw [if_pos hguard]
      by_cases hmem : sampleIndex r up ∈ used
      · rw [if_pos hmem]
        exact ih used j tc acc hj hlen hlt hused hnd
      · rw [if_neg hmem]
        cases hadd : add_out_to_get_random_outs ctx s amount_outs (sampleIndex r up) with
        | none =>
          exact ih _ _ _ _ hj hlen hlt
            (fun e he => List.mem_cons_of_mem _ (hused e he)) hnd
        | some oen =>
          have hup : 0 < up := Nat.lt_of_le_of_lt (Nat.zero_le tc) hguard.2
          have hi : oen.global_amount_index = sampleIndex r up :=
            add_out_index ctx s amount_outs _ oen hadd
          have hlt_i : sampleIndex r up < up := sampleIndex_lt r up hup
          apply ih
          · simp [hj]
          · have hlt_cnt : acc.length < outs_count :=
              lt_of_le_of_ne hlen (by rw [← hj]; exact hguard.1)
            simpa using hlt_cnt
          · intro e he
            rcases List.mem_append.mp he with h | h
            · exact hlt e h
            · have he2 : e = oen := by simpa using h
              rw [he2, hi]
              exact hlt_i
          · intro e he
            rcases List.mem_append.mp he with h | h
            · exact List.mem_cons_of_mem _ (hused e h)
            · have he2 : e = oen := by simpa using h
              rw [he2, hi]
              exact List.mem_cons_self _ _
          · rw [List.map_append]
            have hnotin : oen.global_amount_index ∉ acc.map (·.global_amount_index) := by
              rw [hi]
              intro hcon
              rcases List.mem_map.mp hcon with ⟨e, he, hee⟩
              exact hmem (hee ▸ hused e he)
            refine List.Nodup.append hnd (by simp) ?_
            intro a ha hb
            have hb2 : a = oen.global_amount_index := by simpa using hb
            rw [hb2] at ha
            exact hnotin ha
    · rw [if_neg hguard]
      exact ⟨hlt, hnd, hlen⟩

/-- Outputs entry of the C9 scenario: three outputs of amount 100, the first
two in the (unlocked) genesis block, the third in a (still locked) block at
height 4. -/
def oe9 : OutputsEntry :=
  { outputs := [({ block := 0, transaction := 0 }, 0),
                ({ block := 0, transaction := 0 }, 0),
                ({ block := 4, transaction := 0 }, 0)] }

/-- Context for the C9 scenario: coinbase unlock window 1. -/
def ctx9 : Ctx := { ctx2 with minedMoneyUnlockWindow := 1 }

/-- State for the C9 scenario: the genesis chain reported at height 2 with
the o/100 list oe9, so the unlocked prefix has 2 of the 3 candidates. -/
def state9 : KbState :=
  { genesisState with
    db := { genesisState.db with outputsIndex := [(100, oe9)] }
    m_height := 2 }

/-- C9 counterexample: the source samples whenever the WHOLE o/amount list
is longer than the requested count (Blockchain.cpp:1920,
amount_outs.size() > req.outs_count), not when the unlocked prefix is.  With
3 candidates, unlocked prefix 2 and requested count 2, the claim prescribes
returning all unlocked candidates in order, but the source enters the
sampling branch and returns them in draw order: with the random stream
[2^51, 0] the draws map to indices 1 then 0, so the two functions disagree
on the same input. -/
theorem getRandomOutsByAmount_branch_counterexample :
    find_end_of_allowed_index ctx9 state9 oe9.outputs = 2 ∧
    oe9.outputs.length = 3 ∧
    getRandomOutsForAmount ctx9 state9 100 2 [2 ^ 51, 0] =
      some [{ global_amount_index := 1, out_key := 40 },
            { global_amount_index := 0, out_key := 40 }] ∧
    getRandomOutsForAmountClaimed ctx9 state9 100 2 [2 ^ 51, 0] =
      some [{ global_amount_index := 0, out_key := 40 },
            { global_amount_index := 1, out_key := 40 }] ∧
    getRandomOutsForAmount ctx9 state9 100 2 [2 ^ 51, 0] ≠
      getRandomOutsForAmountClaimed ctx9 state9 100 2 [2 ^ 51, 0] := by
  refine ⟨by decide, by decide, by decide, by decide, by decide⟩

/-- C9 (amended): for every requested amount with an o/amount entry,
candidates are restricted to the unlocked prefix bound computed by
find_end_of_allowed_index (blockHeight + version-gated CoinbaseUnlockWindow
at most currentHeight); when the WHOLE candidate list is no longer than the
requested count, all unlocked-prefix candidates are returned in order;
when it is longer, the sampling branch runs and every returned candidate
has a global index strictly below the unlocked bound, the indices are
pairwise distinct, and at most the requested count are returned. -/
theorem getRandomOutsForAmount_characterization (ctx : Ctx) (s : KbState)
    (amount outs_count : Nat) (rng : List Nat) (oe : OutputsEntry)
    (result : List OutEntry)
    (hoe : dbGet s.db.outputsIndex amount = some oe)
    (hres : getRandomOutsForAmount ctx s amount outs_count rng = some result) :
    (oe.outputs.length ≤ outs_count →
      result = allowedPrefixOuts ctx s oe.outputs
        (find_end_of_allowed_index ctx s oe.outputs)) ∧
    (outs_count < oe.outputs.length →
      ((∀ e ∈ result,
          e.global_amount_index < find_end_of_allowed_index ctx s oe.outputs) ∧
       (result.map (·.global_amount_index)).Nodup ∧
       result.length ≤ outs_count)) := by
  unfold getRandomOutsForAmount at hres
  simp only [hoe] at hres
  by_cases hguard : ¬ find_end_of_allowed_index ctx s oe.outputs ≤ oe.outputs.length
  · rw [if_pos hguard] at hres
    cases hres
  · rw [if_neg hguard] at hres
    by_cases hbr : oe.outputs.length > outs_count
    · rw [if_pos hbr] at hres
      injection hres with hres
      constructor
      · intro hle
        omega
      · intro _
        rw [← hres]
        exact randomOutsSampleLoop_sound ctx s oe.outputs outs_count
          (find_end_of_allowed_index ctx s oe.outputs) rng [] 0 0 [] rfl
          (Nat.zero_le _) (by simp) (by simp) (by simp)
    · rw [if_neg hbr] at hres
      injection hres with hres
      constructor
      · intro _
        exact hres.symm
      · intro hgt
        omega

/-- Witness for getRandomOutsForAmount_characterization at the C9 scenario:
the sampling branch returns indices 1 and 0, below the bound 2, distinct,
and no more than the requested 2. -/
theorem getRandomOutsForAmount_characterization_witness :
    (∀ e ∈ ([{ global_amount_index := 1, out_key := 40 },
             { global_amount_index := 0, out_key := 40 }] : List OutEntry),
        e.global_amount_index < find_end_of_allowed_index ctx9 state9 oe9.outputs) ∧
    (([{ global_amount_index := 1, out_key := 40 },
       { global_amount_index := 0, out_key := 40 }] : List OutEntry).map
        (·.global_amount_index)).Nodup ∧
    ([{ global_amount_index := 1, out_key := 40 },
      { global_amount_index := 0, out_key := 40 }] : List OutEntry).length ≤ 2 :=
  (getRandomOutsForAmount_characterization ctx9 state9 100 2 [2 ^ 51, 0] oe9 _
    (by decide) (by decide)).2 (by decide)
